import Mathlib

/-!
Verification development for the timon-interpreter repository.

The definitions below are shallow embeddings of the Python source:

* `timoninterpreter/tokens.py` — temporal values (`DateValue`, `TimeValue`,
  `DateTimeValue`, `TimedeltaValue`) and their arithmetic/comparison algebra;
* `timoninterpreter/execution.py` — `Environment` / `Scope`;
* `timoninterpreter/syntax_nodes.py` — statement/expression execution and
  the recursive-descent parser;
* `timoninterpreter/lexical_analysis.py` — the numeric and string sub-lexers.

Python `int` is embedded as `Int`; Python `//` and `%` (floor division /
modulus) coincide with Lean's `Int` `/` and `%` (Euclidean) for the positive
divisors used throughout, which is the only way they are used here.
Python exceptions are embedded as explicit error results (`Option` /
`Except`), distinguishing the exception classes the source distinguishes.
-/

namespace Timon

/-- Leap-year test, as in Python `calendar.isleap` (used by
`calendar.monthrange`): divisible by 4 and not by 100 unless by 400. -/
def isleap (y : Int) : Bool :=
  y % 4 == 0 && (y % 100 != 0 || y % 400 == 0)

/-- Number of days in a month, as returned by `calendar.monthrange(y, m)[1]`
for `1 ≤ m ≤ 12`. -/
def daysInMonth (y m : Int) : Int :=
  if m == 2 then (if isleap y then 29 else 28)
  else if m == 4 || m == 6 || m == 9 || m == 11 then 30
  else 31

/-- A (not necessarily valid) Gregorian calendar date, the data carried by
the Python `datetime.date` and hence by `DateValue` in `tokens.py`. -/
structure PyDate where
  year : Int
  month : Int
  day : Int
deriving Repr, DecidableEq

/-- Validity enforced by the Python `datetime.date` constructor (and therefore
by `DateValue.__init__`): `MINYEAR = 1`, `MAXYEAR = 9999`, month in range,
day within the month length. -/
def PyDate.valid (d : PyDate) : Bool :=
  1 ≤ d.year && d.year ≤ 9999 && 1 ≤ d.month && d.month ≤ 12 &&
    1 ≤ d.day && d.day ≤ daysInMonth d.year d.month

/-- Wall-clock time of day, the data of `datetime.time` / `TimeValue`. -/
structure PyTime where
  hour : Int
  minute : Int
  second : Int
deriving Repr, DecidableEq

/-- Validity enforced by `datetime.time` / `TimeValue.__init__`. -/
def PyTime.valid (t : PyTime) : Bool :=
  0 ≤ t.hour && t.hour ≤ 23 && 0 ≤ t.minute && t.minute ≤ 59 &&
    0 ≤ t.second && t.second ≤ 59

/-- The data of `DateTimeValue`: a `DateValue` plus a `TimeValue`. -/
structure PyDateTime where
  date : PyDate
  time : PyTime
deriving Repr, DecidableEq

def PyDateTime.valid (dt : PyDateTime) : Bool :=
  dt.date.valid && dt.time.valid

def midnight : PyTime := ⟨0, 0, 0⟩

/-- Lift a date to a datetime at `00:00:00`, as the comparison and arithmetic
methods of `DateValue` do via `DateTimeValue(d, m, y, 0, 0, 0)`. -/
def PyDate.toDT (d : PyDate) : PyDateTime := ⟨d, midnight⟩

/-- `TimedeltaValue` from `tokens.py`: seven independent signed fields. -/
structure TimedeltaValue where
  years : Int := 0
  months : Int := 0
  weeks : Int := 0
  days : Int := 0
  hours : Int := 0
  minutes : Int := 0
  seconds : Int := 0
deriving Repr, DecidableEq

namespace TimedeltaValue

/-- `TimedeltaValue.__eq__`.  Note the sub-month totals it computes:
`seconds + 60*(minutes + 60*(days + 7*weeks))` — the `hours` field does not
appear, and a day contributes `60*60` seconds. -/
def pyEq (a b : TimedeltaValue) : Bool :=
  let selfTotalMonths := a.years * 12 + a.months
  let otherTotalMonths := b.years * 12 + b.months
  let selfTotalSecondsLessThanMonth :=
    a.seconds + 60 * (a.minutes + 60 * (a.days + 7 * a.weeks))
  let otherTotalSecondsLessThanMonth :=
    b.seconds + 60 * (b.minutes + 60 * (b.days + 7 * b.weeks))
  if selfTotalSecondsLessThanMonth ≠ otherTotalSecondsLessThanMonth then false
  else selfTotalMonths == otherTotalMonths

/-- `TimedeltaValue.__lt__`: compares
`total_months * 31 + sub_month_seconds // (60*60*24)` keys, where the
sub-month seconds count `minutes + 60*(hours + 24*(days + 7*weeks))`. -/
def pyLt (a b : TimedeltaValue) : Bool :=
  let selfTotalMonths := a.years * 12 + a.months
  let otherTotalMonths := b.years * 12 + b.months
  let selfTotalSecondsLessThanMonth :=
    a.seconds + 60 * (a.minutes + 60 * (a.hours + 24 * (a.days + 7 * a.weeks)))
  let otherTotalSecondsLessThanMonth :=
    b.seconds + 60 * (b.minutes + 60 * (b.hours + 24 * (b.days + 7 * b.weeks)))
  decide ((selfTotalMonths * 31) + (selfTotalSecondsLessThanMonth / (60 * 60 * 24)) <
    (otherTotalMonths * 31) + (otherTotalSecondsLessThanMonth / (60 * 60 * 24)))

/-- `TimedeltaValue.__add__`: field-wise addition. -/
def pyAdd (a b : TimedeltaValue) : TimedeltaValue :=
  ⟨a.years + b.years, a.months + b.months, a.weeks + b.weeks, a.days + b.days,
   a.hours + b.hours, a.minutes + b.minutes, a.seconds + b.seconds⟩

/-- `TimedeltaValue.__neg__`: field-wise negation. -/
def pyNeg (a : TimedeltaValue) : TimedeltaValue :=
  ⟨-a.years, -a.months, -a.weeks, -a.days, -a.hours, -a.minutes, -a.seconds⟩

/-- Total seconds of the sub-month fields as normalized by the Python
`datetime.timedelta(weeks=…, days=…, hours=…, minutes=…, seconds=…)`. -/
def subSeconds (a : TimedeltaValue) : Int :=
  a.weeks * 604800 + a.days * 86400 + a.hours * 3600 + a.minutes * 60 + a.seconds

end TimedeltaValue

/-- First half of `DateTimeValue.add_years_and_months`: shift the month index
by `months`, clamping the day to the target month length, and fail (Python
`ValueError` from `date.replace`) when the target year leaves `1..9999`.
Returns the new date together with whether the day was clamped. -/
def addMonthsCode (d : PyDate) (months : Int) : Option (PyDate × Bool) :=
  let newMonth0 := d.month - 1 + months
  let newYear := d.year + newMonth0 / 12
  let newMonth := newMonth0 % 12 + 1
  let newDay := min d.day (daysInMonth newYear newMonth)
  if 1 ≤ newYear ∧ newYear ≤ 9999 then some (⟨newYear, newMonth, newDay⟩, newDay < d.day)
  else none

/-- Second half of `DateTimeValue.add_years_and_months`:
`new_date.replace(year=new_date.year + years)`, falling back to
`month=2, day=28` when that raises (which, for a valid input date and a
target year in range, happens exactly for Feb 29 landing on a non-leap
year).  Fails when the target year leaves `1..9999`. -/
def addYearsCode (d : PyDate) (years : Int) : Option (PyDate × Bool) :=
  let y2 := d.year + years
  if 1 ≤ y2 ∧ y2 ≤ 9999 ∧ d.day ≤ daysInMonth y2 d.month then
    some (⟨y2, d.month, d.day⟩, false)
  else if 1 ≤ y2 ∧ y2 ≤ 9999 then some (⟨y2, 2, 28⟩, true)
  else none

/-- `DateTimeValue.add_years_and_months(source_date, years, months)`:
months shift first, then the year shift.  The boolean records whether any
day-of-month clamping happened in either step. -/
def addYearsAndMonthsCode (d : PyDate) (years months : Int) : Option (PyDate × Bool) :=
  match addMonthsCode d months with
  | none => none
  | some (d1, c1) =>
    match addYearsCode d1 years with
    | none => none
    | some (d2, c2) => some (d2, c1 || c2)

/-- Successor day in the proleptic Gregorian calendar restricted to the Python
`date` range; `none` past `9999-12-31`.  `date.fromordinal (d.toordinal + 1)`
computes exactly this step, so iterating it embeds the Python
`date + timedelta(days=n)`. -/
def nextDay (d : PyDate) : Option PyDate :=
  if d.day < daysInMonth d.year d.month then some ⟨d.year, d.month, d.day + 1⟩
  else if d.month < 12 then some ⟨d.year, d.month + 1, 1⟩
  else if d.year < 9999 then some ⟨d.year + 1, 1, 1⟩
  else none

/-- Predecessor day; `none` before `0001-01-01`. -/
def prevDay (d : PyDate) : Option PyDate :=
  if 1 < d.day then some ⟨d.year, d.month, d.day - 1⟩
  else if 1 < d.month then some ⟨d.year, d.month - 1, daysInMonth d.year (d.month - 1)⟩
  else if 1 < d.year then some ⟨d.year - 1, 12, 31⟩
  else none

def addDaysNat : Nat → PyDate → Option PyDate
  | 0, d => some d
  | n + 1, d => (nextDay d).bind (addDaysNat n)

def subDaysNat : Nat → PyDate → Option PyDate
  | 0, d => some d
  | n + 1, d => (prevDay d).bind (subDaysNat n)

/-- Python `date + timedelta(days=k)` (overflow ⇒ `none`). -/
def addDays (d : PyDate) (k : Int) : Option PyDate :=
  if 0 ≤ k then addDaysNat k.toNat d else subDaysNat (-k).toNat d

/-- Seconds since midnight of a `PyTime`. -/
def PyTime.toSeconds (t : PyTime) : Int :=
  t.hour * 3600 + t.minute * 60 + t.second

/-- Python `datetime + timedelta(seconds=s)`: normalize the total seconds of
the day, carry whole days into the date. -/
def shiftSeconds (dt : PyDateTime) (s : Int) : Option PyDateTime :=
  let t := dt.time.toSeconds + s
  let q := t / 86400
  let r := t % 86400
  (addDays dt.date q).map fun d2 => ⟨d2, ⟨r / 3600, r % 3600 / 60, r % 60⟩⟩

/-- `DateTimeValue.__add__` with a `TimedeltaValue`: years/months via
`add_years_and_months`, then the sub-month fields via one
`datetime.timedelta` addition.  Instrumented with the clamp flag. -/
def dtAddTd (dt : PyDateTime) (td : TimedeltaValue) : Option (PyDateTime × Bool) :=
  match addYearsAndMonthsCode dt.date td.years td.months with
  | none => none
  | some (d1, c) =>
    match shiftSeconds ⟨d1, dt.time⟩ td.subSeconds with
    | none => none
    | some dt2 => some (dt2, c)

/-- `DateValue.__add__` with a `TimedeltaValue`: promote to a midnight
`DateTimeValue` first. -/
def dateAddTd (d : PyDate) (td : TimedeltaValue) : Option (PyDateTime × Bool) :=
  dtAddTd d.toDT td

/-- `DateTimeValue.__sub__` with a `TimedeltaValue`: `self + (-other)`. -/
def dtSubTd (dt : PyDateTime) (td : TimedeltaValue) : Option (PyDateTime × Bool) :=
  dtAddTd dt td.pyNeg

/-- Python `date` comparison: lexicographic on (year, month, day). -/
def PyDate.pyLt (a b : PyDate) : Bool :=
  a.year < b.year || (a.year == b.year &&
    (a.month < b.month || (a.month == b.month && a.day < b.day)))

/-- Python `time` comparison: lexicographic on (hour, minute, second). -/
def PyTime.pyLt (a b : PyTime) : Bool :=
  a.hour < b.hour || (a.hour == b.hour &&
    (a.minute < b.minute || (a.minute == b.minute && a.second < b.second)))

/-- `DateTimeValue.__eq__` on two datetimes: date parts and time parts equal. -/
def dtEq (a b : PyDateTime) : Bool :=
  a.date == b.date && a.time == b.time

/-- `DateTimeValue.__lt__` on two datetimes: date part smaller, or equal date
parts and time part smaller. -/
def dtLt (a b : PyDateTime) : Bool :=
  a.date.pyLt b.date || (a.date == b.date && a.time.pyLt b.time)

/-- `DateTimeValue == DateValue`: the date is promoted to midnight. -/
def dtEqDate (a : PyDateTime) (b : PyDate) : Bool := dtEq a b.toDT

/-- `DateTimeValue <= DateValue` as produced by `functools.total_ordering`
from `__lt__` and `__eq__`: `a < b or a == b`. -/
def dtLeDate (a : PyDateTime) (b : PyDate) : Bool := dtLt a b.toDT || dtEq a b.toDT

/-! ### Claim-side reference definitions for the temporal algebra

The following definitions restate, in the spec words, procedures that the
claims attribute to the code; they are kept separate from the embedded code
above so the two can be compared. -/

/-- The spec ordering key for a timedelta:
`total_months * 31 + sub_month_duration_in_whole_days`, with the sub-month
duration converted to seconds at `7*24*3600` per week, `24*3600` per day,
`3600` per hour, `60` per minute. -/
def timedeltaOrderKey (a : TimedeltaValue) : Int :=
  (a.years * 12 + a.months) * 31 +
    (a.weeks * (7 * 24 * 3600) + a.days * (24 * 3600) + a.hours * 3600 +
      a.minutes * 60 + a.seconds) / 86400

/-- The spec timedelta equality: total months match and the sub-month
durations, converted to seconds at `7*24*3600` per week, `24*3600` per day,
`3600` per hour, `60` per minute, `1` per second, match. -/
def timedeltaEqSpec (a b : TimedeltaValue) : Bool :=
  (a.years * 12 + a.months == b.years * 12 + b.months) &&
    (a.weeks * (7 * 24 * 3600) + a.days * (24 * 3600) + a.hours * 3600 +
        a.minutes * 60 + a.seconds ==
      b.weeks * (7 * 24 * 3600) + b.days * (24 * 3600) + b.hours * 3600 +
        b.minutes * 60 + b.seconds)

/-- A single year shift clamping the day to the last day of the target
month, as the claim wording describes. -/
def specClampAddYears (d : PyDate) (years : Int) : PyDate :=
  ⟨d.year + years, d.month, min d.day (daysInMonth (d.year + years) d.month)⟩

/-- A single month-index shift clamping the day to the last day of the
target month, as the claim wording describes. -/
def specClampAddMonths (d : PyDate) (months : Int) : PyDate :=
  let idx := d.month - 1 + months
  let y := d.year + idx / 12
  let m := idx % 12 + 1
  ⟨y, m, min d.day (daysInMonth y m)⟩

/-- The procedure claimed by the spec for the years/months part of
date-plus-timedelta: years first, then months, clamping at each step. -/
def specYearsThenMonths (d : PyDate) (years months : Int) : PyDate :=
  specClampAddMonths (specClampAddYears d years) months

/-! ### Evaluator: `execution.py` and the `execute`/`self_evaluate` methods
of `syntax_nodes.py` -/

/-- Runtime values of the language (the payloads flowing through
`self_evaluate`): Python `None` plus the six value kinds. -/
inductive Value where
  | pyNone
  | int (n : Int)
  | str (s : String)
  | date (d : PyDate)
  | time (t : PyTime)
  | datetime (dt : PyDateTime)
  | timedelta (td : TimedeltaValue)
deriving Repr, DecidableEq

/-- Embedded Python exception kinds, as distinguished by the source
`raise`/`except` clauses.  `executionError` models the `ExecutionError`
raised throughout `syntax_nodes.py`; its class is referenced from
`error_handling.py` but not defined under `src/`, so, following the spec, it
carries the offending token (here its text) and a message.  `outOfFuel` is
an artifact of the embedding (insufficient recursion fuel), not a Python
exception. -/
inductive Err where
  | executionError (tokenName msg : String)
  | valueError (msg : String)
  | typeError (msg : String)
  | overflowError (msg : String)
  | attributeError (msg : String)
  | syntacticError (msg : String)
  | outOfFuel
deriving Repr, DecidableEq

/-- The seven time-unit keyword nodes (`Years` … `Seconds`). -/
inductive TimeUnit where
  | years | months | weeks | days | hours | minutes | seconds
deriving Repr, DecidableEq

/-- `self_evaluate` of a time-unit keyword: a unit-sized timedelta. -/
def TimeUnit.selfEvaluate : TimeUnit → TimedeltaValue
  | .years => {years := 1}
  | .months => {months := 1}
  | .weeks => {weeks := 1}
  | .days => {days := 1}
  | .hours => {hours := 1}
  | .minutes => {minutes := 1}
  | .seconds => {seconds := 1}

/-- Expressions of the embedded sublanguage: literals, identifier reads and
function calls (the constructs the verified claims exercise). -/
inductive Expr where
  | numberLit (n : Int)
  | strLit (s : String)
  | dateLit (d : PyDate)
  | timeLit (t : PyTime)
  | timedeltaLit (td : TimedeltaValue)
  | ident (name : String)
  | call (name : String) (args : List Expr)
deriving Repr

/-- Statements, mirroring the `execute`-bearing nodes of `syntax_nodes.py`.
`bareIdent` is a bare identifier statement, which `Body._get_node` accepts
(see `C7`); the `Identifier` node has no `execute` method. -/
inductive Stmt where
  | varDef (name : String) (init : Option Expr)
  | assign (name : String) (e : Expr)
  | funDef (name : String) (params : List String) (body : List Stmt)
  | ifStmt (cond : Expr) (body : List Stmt) (elseBody : Option (List Stmt))
  | fromStmt (start : Expr) (stop : Expr) (unit : TimeUnit) (varName : String)
      (body : List Stmt)
  | printStmt (e : Expr)
  | returnStmt (e : Option Expr)
  | callStmt (name : String) (args : List Expr)
  | bareIdent (name : String)
deriving Repr

/-- Best-effort text of the token reported by `ExecutionError`s that cite an
expression token (e.g. `self.start.token` in `FromStatement.execute`). -/
def Expr.tokenText : Expr → String
  | .numberLit n => toString n
  | .strLit s => s
  | .dateLit _ => "date-literal"
  | .timeLit _ => "time-literal"
  | .timedeltaLit _ => "timedelta-literal"
  | .ident n => n
  | .call n _ => n

/-- Association-list lookup keyed by name (Python `dict` access). -/
def lookupA {α : Type} (l : List (String × α)) (k : String) : Option α :=
  (l.find? (fun p => p.1 == k)).map (fun p => p.2)

/-- Association-list update-or-insert (Python `dict` assignment). -/
def setA {α : Type} (l : List (String × α)) (k : String) (v : α) : List (String × α) :=
  if l.any (fun p => p.1 == k) then
    l.map (fun p => if p.1 == k then (k, v) else p)
  else l ++ [(k, v)]

/-- One `Scope` from `execution.py`: a variable map (Python stores `None`
for a declared-but-uninitialized variable, embedded as `Value.pyNone`) and a
function map from names to (parameters, body). -/
structure Scope where
  vars : List (String × Value) := []
  funs : List (String × (List String × List Stmt)) := []
deriving Repr

/-- The `Environment`: a non-empty stack of scopes (head = top). -/
structure Env where
  scopes : List Scope
deriving Repr

/-- `Environment.__init__`: one (global) scope. -/
def Env.initial : Env := ⟨[{}]⟩

def Env.depth (e : Env) : Nat := e.scopes.length

/-- `Environment.push_scope`. -/
def Env.pushScope (e : Env) : Env := ⟨{} :: e.scopes⟩

/-- `Environment.pop_scope`: popping the global scope raises
`OverflowError`. -/
def Env.popScope (e : Env) : Except Err Env :=
  match e.scopes with
  | [_] => .error (.overflowError "Cant pop global scope")
  | _ :: rest => .ok ⟨rest⟩
  | [] => .error (.overflowError "Cant pop global scope")

/-- `Environment.add_var`: declare in the topmost scope with value `None`. -/
def Env.addVar (e : Env) (n : String) : Env :=
  match e.scopes with
  | s :: rest => ⟨{ s with vars := setA s.vars n .pyNone } :: rest⟩
  | [] => e

/-- `Environment.set_var`: walk scopes top-down, update the first scope
declaring the name. -/
def setVarInScopes : List Scope → String → Value → Option (List Scope)
  | [], _, _ => none
  | s :: rest, n, v =>
    if (lookupA s.vars n).isSome then
      some ({ s with vars := setA s.vars n v } :: rest)
    else (setVarInScopes rest n v).map (fun ss => s :: ss)

def Env.setVar (e : Env) (n : String) (v : Value) : Except Err Env :=
  match setVarInScopes e.scopes n v with
  | some ss => .ok ⟨ss⟩
  | none => .error (.valueError ("Variable " ++ n ++ " undeclared"))

/-- `Environment.get_var`: walk scopes top-down; a declared-but-`None`
binding is "uninitialized". -/
def getVarInScopes : List Scope → String → Except Err Value
  | [], n => .error (.valueError ("Variable " ++ n ++ " undeclared"))
  | s :: rest, n =>
    match lookupA s.vars n with
    | some .pyNone => .error (.valueError ("Variable " ++ n ++ " uninitialized"))
    | some v => .ok v
    | none => getVarInScopes rest n

def Env.getVar (e : Env) (n : String) : Except Err Value :=
  getVarInScopes e.scopes n

/-- `Environment.set_fun`: bind in the topmost scope. -/
def Env.setFun (e : Env) (n : String) (f : List String × List Stmt) : Env :=
  match e.scopes with
  | s :: rest => ⟨{ s with funs := setA s.funs n f } :: rest⟩
  | [] => e

/-- `Environment.get_fun`: walk scopes top-down. -/
def getFunInScopes : List Scope → String → Except Err (List String × List Stmt)
  | [], n => .error (.valueError ("Function " ++ n ++ " undeclared"))
  | s :: rest, n =>
    match lookupA s.funs n with
    | some f => .ok f
    | none => getFunInScopes rest n

def Env.getFun (e : Env) (n : String) : Except Err (List String × List Stmt) :=
  getFunInScopes e.scopes n

/-- Python truthiness of a runtime value (`if`/`while` conditions): `None`
is falsy, `0` and `""` are falsy, every temporal value object is truthy. -/
def Value.truthy : Value → Bool
  | .pyNone => false
  | .int n => n != 0
  | .str s => s ≠ ""
  | _ => true

/-- Value-level `<=` dispatch (`start <= end` in `FromStatement.execute`):
`functools.total_ordering` derives `a <= b` as `a < b or a == b`; the mixed
date/time/datetime promotions follow `tokens.py`; unsupported pairs raise
`TypeError`. -/
def pyLeValue : Value → Value → Except Err Bool
  | .int a, .int b => .ok (a ≤ b)
  | .str a, .str b => .ok (a ≤ b)
  | .date a, .date b => .ok (a.pyLt b || a == b)
  | .date a, .datetime b => .ok (dtLt a.toDT b || dtEq a.toDT b)
  | .datetime a, .date b => .ok (dtLt a b.toDT || dtEq a b.toDT)
  | .datetime a, .datetime b => .ok (dtLt a b || dtEq a b)
  | .time a, .time b => .ok (a.pyLt b || a == b)
  | .time a, .datetime b => .ok (dtLt ⟨⟨1, 1, 1⟩, a⟩ b || dtEq ⟨⟨1, 1, 1⟩, a⟩ b)
  | .datetime a, .time b => .ok (dtLt a ⟨⟨1, 1, 1⟩, b⟩ || dtEq a ⟨⟨1, 1, 1⟩, b⟩)
  | .timedelta a, .timedelta b => .ok (a.pyLt b || a.pyEq b)
  | _, _ => .error (.typeError "unorderable types")

/-- Value-level `+` dispatch (`start += step` in `FromStatement.execute`),
following the `__add__`/`__radd__` methods of `tokens.py`; a date-range
overflow raises `OverflowError`, unsupported pairs raise `TypeError`. -/
def pyAddValue : Value → Value → Except Err Value
  | .int a, .int b => .ok (.int (a + b))
  | .str a, .str b => .ok (.str (a ++ b))
  | .date a, .time b => .ok (.datetime ⟨a, b⟩)
  | .time a, .date b => .ok (.datetime ⟨b, a⟩)
  | .date a, .timedelta b =>
    match dateAddTd a b with
    | some (dt, _) => .ok (.datetime dt)
    | none => .error (.overflowError "date value out of range")
  | .timedelta a, .date b =>
    match dateAddTd b a with
    | some (dt, _) => .ok (.datetime dt)
    | none => .error (.overflowError "date value out of range")
  | .time a, .timedelta b =>
    match dtAddTd ⟨⟨1, 1, 1⟩, a⟩ b with
    | some (dt, _) => .ok (.datetime dt)
    | none => .error (.overflowError "date value out of range")
  | .timedelta a, .time b =>
    match dtAddTd ⟨⟨1, 1, 1⟩, b⟩ a with
    | some (dt, _) => .ok (.datetime dt)
    | none => .error (.overflowError "date value out of range")
  | .datetime a, .timedelta b =>
    match dtAddTd a b with
    | some (dt, _) => .ok (.datetime dt)
    | none => .error (.overflowError "date value out of range")
  | .timedelta a, .datetime b =>
    match dtAddTd b a with
    | some (dt, _) => .ok (.datetime dt)
    | none => .error (.overflowError "date value out of range")
  | .timedelta a, .timedelta b => .ok (.timedelta (a.pyAdd b))
  | _, _ => .error (.typeError "unsupported operand types for +")

/-- Remap `ValueError`/`TypeError`/`OverflowError` to an `ExecutionError`
citing the given token, as the `try:`/`except (ValueError, TypeError,
OverflowError)` blocks of `syntax_nodes.py` do; other errors propagate. -/
def remapVTO (tok : String) : Except Err α → Except Err α
  | .error (.valueError m) => .error (.executionError tok m)
  | .error (.typeError m) => .error (.executionError tok m)
  | .error (.overflowError m) => .error (.executionError tok m)
  | r => r

mutual

/-- `self_evaluate` of an expression node.  `Identifier.self_evaluate`
wraps the environment `ValueError`s into `ExecutionError`s citing the
identifier token. -/
def evalExpr : Nat → Env → Expr → Except Err (Value × Env)
  | 0, _, _ => .error .outOfFuel
  | _ + 1, env, .numberLit n => .ok (.int n, env)
  | _ + 1, env, .strLit s => .ok (.str s, env)
  | _ + 1, env, .dateLit d => .ok (.date d, env)
  | _ + 1, env, .timeLit t => .ok (.time t, env)
  | _ + 1, env, .timedeltaLit td => .ok (.timedelta td, env)
  | _ + 1, env, .ident n =>
    match env.getVar n with
    | .ok v => .ok (v, env)
    | .error (.valueError m) => .error (.executionError n m)
    | .error e => .error e
  | fuel + 1, env, .call name args => evalCall fuel env name args

/-- `FunctionCall.self_evaluate`: look up the function (wrapping
`ValueError` into `ExecutionError`); on arity mismatch raise
`ValueError("TODO")`; push a scope; declare the parameters
(`ParametersDeclaration.execute`); then bind each parameter to its argument
— evaluating the argument inside the freshly pushed scope; run the body;
pop the scope; return the body value. -/
def evalCall : Nat → Env → String → List Expr → Except Err (Value × Env)
  | 0, _, _, _ => .error .outOfFuel
  | fuel + 1, env, name, args =>
    match env.getFun name with
    | .error (.valueError m) => .error (.executionError name m)
    | .error e => .error e
    | .ok (params, body) =>
      if params.length ≠ args.length then .error (.valueError "TODO")
      else do
        let env1 := params.foldl Env.addVar env.pushScope
        let env2 ← bindArgs fuel env1 (params.zip args)
        let (_, v, env3) ← execBody fuel env2 body
        let env4 ← env3.popScope
        .ok (v, env4)

/-- The parameter-binding loop of `FunctionCall.self_evaluate`: each
iteration evaluates `param_val.self_evaluate(environment)` and calls
`environment.set_var` inside a `try` whose `except ValueError` re-raises as
`ExecutionError` citing the parameter token. -/
def bindArgs : Nat → Env → List (String × Expr) → Except Err Env
  | 0, _, _ => .error .outOfFuel
  | _ + 1, env, [] => .ok env
  | fuel + 1, env, (p, a) :: rest =>
    match (do
        let (v, env') ← evalExpr fuel env a
        env'.setVar p v) with
    | .ok env'' => bindArgs fuel env'' rest
    | .error (.valueError m) => .error (.executionError p m)
    | .error e => .error e

/-- `execute` of a statement node, returning the `(jumping, value)` pair
plus the updated environment. -/
def execStmt : Nat → Env → Stmt → Except Err (Bool × Value × Env)
  | 0, _, _ => .error .outOfFuel
  | fuel + 1, env, .varDef n init =>
    let env1 := env.addVar n
    match init with
    | none => .ok (false, .pyNone, env1)
    | some e =>
      match (do
          let (v, env2) ← evalExpr fuel env1 e
          env2.setVar n v) with
      | .ok env3 => .ok (false, .pyNone, env3)
      | .error (.valueError m) => .error (.executionError n m)
      | .error err => .error err
  | fuel + 1, env, .assign n e =>
    match (do
        let (v, env1) ← evalExpr fuel env e
        env1.setVar n v) with
    | .ok env2 => .ok (false, .pyNone, env2)
    | .error (.valueError m) => .error (.executionError n m)
    | .error err => .error err
  | _ + 1, env, .funDef n params body =>
    .ok (false, .pyNone, env.setFun n (params, body))
  | fuel + 1, env, .ifStmt cond body elseBody => do
    let (c, env1) ← evalExpr fuel env cond
    if c.truthy then do
      let (j, v, env2) ← execBody fuel env1.pushScope body
      let env3 ← env2.popScope
      if j then .ok (true, v, env3) else .ok (false, .pyNone, env3)
    else
      match elseBody with
      | some b => do
        let (j, v, env2) ← execBody fuel env1.pushScope b
        let env3 ← env2.popScope
        if j then .ok (true, v, env3) else .ok (false, .pyNone, env3)
      | none => .ok (false, .pyNone, env1)
  | fuel + 1, env, .fromStmt start stop unit varName body => do
    let env1 := env.pushScope
    let (startV, env2) ← evalExpr fuel env1 start
    let (endV, env3) ← evalExpr fuel env2 stop
    let stepV := Value.timedelta unit.selfEvaluate
    remapVTO start.tokenText
      (fromLoop fuel env3 startV endV stepV start.tokenText varName body)
  | fuel + 1, env, .printStmt e => do
    let (_, env1) ← evalExpr fuel env e
    .ok (false, .pyNone, env1)
  | fuel + 1, env, .returnStmt (some e) => do
    let (v, env1) ← evalExpr fuel env e
    .ok (true, v, env1)
  | _ + 1, env, .returnStmt none => .ok (true, .int 0, env)
  | fuel + 1, env, .callStmt name args => do
    let (_, env1) ← evalCall fuel env name args
    .ok (false, .pyNone, env1)
  | _ + 1, _, .bareIdent _ =>
    .error (.attributeError "Identifier object has no attribute execute")

/-- The `while start <= end:` loop of `FromStatement.execute`.  Note: on
both exits (loop condition false, or a jumping body) the scope pushed at
the top of `FromStatement.execute` is left on the stack. -/
def fromLoop : Nat → Env → Value → Value → Value → String → String → List Stmt →
    Except Err (Bool × Value × Env)
  | 0, _, _, _, _, _, _, _ => .error .outOfFuel
  | fuel + 1, env, startV, endV, stepV, startTok, varName, body => do
    let cond ← pyLeValue startV endV
    if cond then do
      let env1 := (env.pushScope).addVar varName
      let env2 ← (match env1.setVar varName startV with
        | .ok e' => .ok e'
        | .error (.valueError m) => .error (.executionError varName m)
        | .error e => .error e)
      let (j, v, env3) ← execBody fuel env2 body
      let env4 ← env3.popScope
      if j then .ok (true, v, env4)
      else do
        let startV' ← remapVTO startTok (pyAddValue startV stepV)
        fromLoop fuel env4 startV' endV stepV startTok varName body
    else .ok (false, .pyNone, env)

/-- `Body.execute`: run statements until one jumps; otherwise `(False, 0)`. -/
def execBody : Nat → Env → List Stmt → Except Err (Bool × Value × Env)
  | 0, _, _ => .error .outOfFuel
  | _ + 1, env, [] => .ok (false, .int 0, env)
  | fuel + 1, env, s :: rest => do
    let (j, v, env') ← execStmt fuel env s
    if j then .ok (true, v, env') else execBody fuel env' rest

end

/-- `Program.execute`: run statements; the first jumping value is the
program result, otherwise `None`. -/
def execProgram : Nat → Env → List Stmt → Except Err (Value × Env)
  | 0, _, _ => .error .outOfFuel
  | _ + 1, env, [] => .ok (.pyNone, env)
  | fuel + 1, env, s :: rest => do
    let (j, v, env') ← execStmt fuel env s
    if j then .ok (v, env') else execProgram fuel env' rest

/-- Run a program on a fresh environment (as `run_execution` does). -/
def runProgram (fuel : Nat) (stmts : List Stmt) : Except Err (Value × Env) :=
  execProgram fuel Env.initial stmts

/-! ### Parser: the recursive-descent constructors of `syntax_nodes.py`

Every parsing decision in the source depends only on the *types* of the
tokens (`starting_token_types` membership and `token_type` checks), so the
token stream is embedded as a list of token types.  The lexer returns `END`
forever at end of input, embedded by letting `peek` on an empty list yield
`END`.  Each parser consumes tokens and returns the rest; a mismatch raises
`SyntacticError` carrying the offending token type. -/

/-- `TokenType` from `tokens.py`. -/
inductive TokType where
  | identifier
  | kwFun | kwVar | kwIf | kwElse | kwFrom | kwPrint | kwReturn
  | kwTo | kwBy | kwAs
  | kwYears | kwMonths | kwWeeks | kwDays | kwHours | kwMinutes | kwSeconds
  | semicolon | leftParenthesis | rightParenthesis | comma
  | leftBracket | rightBracket | assign
  | logicalOr | logicalAnd | equals | notEquals
  | greater | greaterOrEqual | less | lessOrEqual
  | tokNot | plus | minus | multiplication | division | access | tEnd
  | stringLiteral | numberLiteral
  | dateLiteral | datetimeLiteral | timeLiteral | timedeltaLiteral
deriving Repr, DecidableEq, BEq

/-- Parser outcomes: `SyntacticError` (carrying the offending token type)
or exhausted embedding fuel. -/
inductive PErr where
  | syntacticError (found : TokType)
  | outOfFuel
deriving Repr, DecidableEq

/-- `lexer.peek()` (type of the lookahead token; `END` forever at EOF). -/
def peekT : List TokType → TokType
  | [] => .tEnd
  | t :: _ => t

/-- `lexer.get()` (advance past the lookahead token). -/
def getT : List TokType → List TokType
  | [] => []
  | _ :: r => r

/-- `LeafNode.__init__`: demand one token of the given type. -/
def expectT (t : TokType) (toks : List TokType) : Except PErr (List TokType) :=
  if peekT toks == t then .ok (getT toks) else .error (.syntacticError (peekT toks))

/-- `Expression.starting_token_types()`. -/
def exprStarting : List TokType :=
  [.tokNot, .minus, .numberLiteral, .stringLiteral, .dateLiteral, .timeLiteral,
   .datetimeLiteral, .timedeltaLiteral, .identifier, .leftParenthesis]

/-- The starting types of the seven time-unit keyword nodes. -/
def timeUnitStarting : List TokType :=
  [.kwYears, .kwMonths, .kwWeeks, .kwDays, .kwHours, .kwMinutes, .kwSeconds]

/-- The literal leaf nodes a `MathTerm` may choose. -/
def literalStarting : List TokType :=
  [.numberLiteral, .stringLiteral, .dateLiteral, .timeLiteral, .datetimeLiteral,
   .timedeltaLiteral]

mutual

/-- `Expression.__init__`: a `LogicAndExpression`, then `( "|" LogicAndExpression )*`. -/
def parseExpression : Nat → List TokType → Except PErr (List TokType)
  | 0, _ => .error .outOfFuel
  | fuel + 1, toks => do
    let toks ← parseLogicAnd fuel toks
    parseOrTail fuel toks

def parseOrTail : Nat → List TokType → Except PErr (List TokType)
  | 0, _ => .error .outOfFuel
  | fuel + 1, toks =>
    if peekT toks == .logicalOr then do
      let toks ← parseLogicAnd fuel (getT toks)
      parseOrTail fuel toks
    else .ok toks

/-- `LogicAndExpression`: `LogicEqualityExpression ( "&" LogicEqualityExpression )*`. -/
def parseLogicAnd : Nat → List TokType → Except PErr (List TokType)
  | 0, _ => .error .outOfFuel
  | fuel + 1, toks => do
    let toks ← parseLogicEquality fuel toks
    parseAndTail fuel toks

def parseAndTail : Nat → List TokType → Except PErr (List TokType)
  | 0, _ => .error .outOfFuel
  | fuel + 1, toks =>
    if peekT toks == .logicalAnd then do
      let toks ← parseLogicEquality fuel (getT toks)
      parseAndTail fuel toks
    else .ok toks

/-- `LogicEqualityExpression`: at most one `==`/`!=` (non-associative). -/
def parseLogicEquality : Nat → List TokType → Except PErr (List TokType)
  | 0, _ => .error .outOfFuel
  | fuel + 1, toks => do
    let toks ← parseLogicRelational fuel toks
    if peekT toks == .equals || peekT toks == .notEquals then
      parseLogicRelational fuel (getT toks)
    else .ok toks

/-- `LogicRelationalExpression`: at most one `<`/`<=`/`>`/`>=`. -/
def parseLogicRelational : Nat → List TokType → Except PErr (List TokType)
  | 0, _ => .error .outOfFuel
  | fuel + 1, toks => do
    let toks ← parseLogicTerm fuel toks
    if peekT toks == .greater || peekT toks == .greaterOrEqual ||
        peekT toks == .less || peekT toks == .lessOrEqual then
      parseLogicTerm fuel (getT toks)
    else .ok toks

/-- `LogicTerm`: optional `!`, then a `MathExpression`. -/
def parseLogicTerm : Nat → List TokType → Except PErr (List TokType)
  | 0, _ => .error .outOfFuel
  | fuel + 1, toks =>
    if peekT toks == .tokNot then parseMathExpression fuel (getT toks)
    else parseMathExpression fuel toks

/-- `MathExpression`: `MultiplicativeMathExpression ( ("+"|"-") … )*`. -/
def parseMathExpression : Nat → List TokType → Except PErr (List TokType)
  | 0, _ => .error .outOfFuel
  | fuel + 1, toks => do
    let toks ← parseMulExpression fuel toks
    parseAddTail fuel toks

def parseAddTail : Nat → List TokType → Except PErr (List TokType)
  | 0, _ => .error .outOfFuel
  | fuel + 1, toks =>
    if peekT toks == .plus || peekT toks == .minus then do
      let toks ← parseMulExpression fuel (getT toks)
      parseAddTail fuel toks
    else .ok toks

/-- `MultiplicativeMathExpression`: `MathTerm ( ("*"|"/") MathTerm )*`. -/
def parseMulExpression : Nat → List TokType → Except PErr (List TokType)
  | 0, _ => .error .outOfFuel
  | fuel + 1, toks => do
    let toks ← parseMathTerm fuel toks
    parseMulTail fuel toks

def parseMulTail : Nat → List TokType → Except PErr (List TokType)
  | 0, _ => .error .outOfFuel
  | fuel + 1, toks =>
    if peekT toks == .multiplication || peekT toks == .division then do
      let toks ← parseMathTerm fuel (getT toks)
      parseMulTail fuel toks
    else .ok toks

/-- `MathTerm`: optional `-`; a literal, identifier (possibly a call) or a
parenthesised expression; optional `.unit` time-info access. -/
def parseMathTerm : Nat → List TokType → Except PErr (List TokType)
  | 0, _ => .error .outOfFuel
  | fuel + 1, toks => do
    let toks := if peekT toks == .minus then getT toks else toks
    let toks ← (
      if literalStarting.contains (peekT toks) then .ok (getT toks)
      else if peekT toks == .identifier then do
        let toks := getT toks
        if peekT toks == .leftParenthesis then parseCallArgs fuel toks
        else .ok toks
      else if peekT toks == .leftParenthesis then do
        let toks ← parseExpression fuel (getT toks)
        expectT .rightParenthesis toks
      else .error (.syntacticError (peekT toks)))
    if peekT toks == .access then do
      let toks := getT toks
      if timeUnitStarting.contains (peekT toks) then .ok (getT toks)
      else .error (.syntacticError (peekT toks))
    else .ok toks

/-- `FunctionCall.__init__` after the identifier: `"(" (expr ("," expr)*)? ")"`. -/
def parseCallArgs : Nat → List TokType → Except PErr (List TokType)
  | 0, _ => .error .outOfFuel
  | fuel + 1, toks => do
    let toks ← expectT .leftParenthesis toks
    if exprStarting.contains (peekT toks) then do
      let toks ← parseExpression fuel toks
      let toks ← parseArgsTail fuel toks
      expectT .rightParenthesis toks
    else expectT .rightParenthesis toks

def parseArgsTail : Nat → List TokType → Except PErr (List TokType)
  | 0, _ => .error .outOfFuel
  | fuel + 1, toks =>
    if peekT toks == .comma then do
      let toks ← parseExpression fuel (getT toks)
      parseArgsTail fuel toks
    else .ok toks

end

def parseParamsTail : Nat → List TokType → Except PErr (List TokType)
  | 0, _ => .error .outOfFuel
  | fuel + 1, toks =>
    if peekT toks == .comma then do
      let toks ← expectT .identifier (getT toks)
      parseParamsTail fuel toks
    else expectT .rightParenthesis toks

/-- `ParametersDeclaration.__init__`: `"(" (Identifier ("," Identifier)*)? ")"`. -/
def parseParams (fuel : Nat) (toks : List TokType) : Except PErr (List TokType) := do
  let toks ← expectT .leftParenthesis toks
  if peekT toks == .identifier then
    parseParamsTail fuel (getT toks)
  else expectT .rightParenthesis toks

mutual

/-- `Body.__init__`: `"{"`, then statements while `_get_node` yields one,
then `"}"`. -/
def parseBody : Nat → List TokType → Except PErr (List TokType)
  | 0, _ => .error .outOfFuel
  | fuel + 1, toks => do
    let toks ← expectT .leftBracket toks
    let toks ← parseBodyLoop fuel toks
    expectT .rightBracket toks

def parseBodyLoop : Nat → List TokType → Except PErr (List TokType)
  | 0, _ => .error .outOfFuel
  | fuel + 1, toks => do
    let (progressed, toks') ← parseBodyGetNode fuel toks
    if progressed then parseBodyLoop fuel toks' else .ok toks'

/-- `Body._get_node`: optionally one nestable statement.  After a bare
`Identifier`, a `(` starts a call and `=` an assignment; for *any other*
token the identifier node is kept as the statement and only the trailing
`;` is demanded — there is no error branch here, unlike
`Program._get_node`. -/
def parseBodyGetNode : Nat → List TokType → Except PErr (Bool × List TokType)
  | 0, _ => .error .outOfFuel
  | fuel + 1, toks =>
    match peekT toks with
    | .identifier => do
      let toks := getT toks
      let toks ← (
        if peekT toks == .leftParenthesis then parseCallArgs fuel toks
        else if peekT toks == .assign then parseExpression fuel (getT toks)
        else .ok toks)
      let toks ← expectT .semicolon toks
      .ok (true, toks)
    | .kwVar => do
      let toks ← parseVarDef fuel toks
      .ok (true, toks)
    | .kwIf => do
      let toks ← parseIf fuel toks
      .ok (true, toks)
    | .kwFrom => do
      let toks ← parseFrom fuel toks
      .ok (true, toks)
    | .kwPrint => do
      let toks ← parsePrint fuel toks
      .ok (true, toks)
    | .kwReturn => do
      let toks ← parseReturn fuel toks
      .ok (true, toks)
    | _ => .ok (false, toks)

/-- `VariableDefinitionStatement.__init__`. -/
def parseVarDef : Nat → List TokType → Except PErr (List TokType)
  | 0, _ => .error .outOfFuel
  | fuel + 1, toks => do
    let toks ← expectT .kwVar toks
    let toks ← expectT .identifier toks
    let toks ← (
      if peekT toks == .assign then parseExpression fuel (getT toks)
      else .ok toks)
    expectT .semicolon toks

/-- `IfStatement.__init__`. -/
def parseIf : Nat → List TokType → Except PErr (List TokType)
  | 0, _ => .error .outOfFuel
  | fuel + 1, toks => do
    let toks ← expectT .kwIf toks
    let toks ← parseExpression fuel toks
    let toks ← parseBody fuel toks
    let toks ← (
      if peekT toks == .kwElse then parseBody fuel (getT toks)
      else .ok toks)
    expectT .semicolon toks

/-- `FromStatement.__init__`. -/
def parseFrom : Nat → List TokType → Except PErr (List TokType)
  | 0, _ => .error .outOfFuel
  | fuel + 1, toks => do
    let toks ← expectT .kwFrom toks
    let toks ← parseExpression fuel toks
    let toks ← expectT .kwTo toks
    let toks ← parseExpression fuel toks
    let toks ← expectT .kwBy toks
    let toks ← (
      if timeUnitStarting.contains (peekT toks) then .ok (getT toks)
      else .error (.syntacticError (peekT toks)))
    let toks ← expectT .kwAs toks
    let toks ← expectT .identifier toks
    let toks ← parseBody fuel toks
    expectT .semicolon toks

/-- `PrintStatement.__init__`. -/
def parsePrint : Nat → List TokType → Except PErr (List TokType)
  | 0, _ => .error .outOfFuel
  | fuel + 1, toks => do
    let toks ← expectT .kwPrint toks
    let toks ← parseExpression fuel toks
    expectT .semicolon toks

/-- `ReturnStatement.__init__`: optional expression. -/
def parseReturn : Nat → List TokType → Except PErr (List TokType)
  | 0, _ => .error .outOfFuel
  | fuel + 1, toks => do
    let toks ← expectT .kwReturn toks
    let toks ← (
      if exprStarting.contains (peekT toks) then parseExpression fuel toks
      else .ok toks)
    expectT .semicolon toks

/-- `FunctionDefinitionStatement.__init__`. -/
def parseFunDef : Nat → List TokType → Except PErr (List TokType)
  | 0, _ => .error .outOfFuel
  | fuel + 1, toks => do
    let toks ← expectT .kwFun toks
    let toks ← expectT .identifier toks
    let toks ← parseParams fuel toks
    let toks ← parseBody fuel toks
    expectT .semicolon toks

end

/-- `Program._get_node`: one top-level statement.  After a bare
`Identifier`, `(` starts a call and `=` an assignment; *anything else*
raises a `SyntacticError` (`make_error`). -/
def parseProgramGetNode : Nat → List TokType → Except PErr (List TokType)
  | 0, _ => .error .outOfFuel
  | fuel + 1, toks =>
    match peekT toks with
    | .kwFun => parseFunDef fuel toks
    | .identifier => do
      let toks := getT toks
      let toks ← (
        if peekT toks == .leftParenthesis then parseCallArgs fuel toks
        else if peekT toks == .assign then parseExpression fuel (getT toks)
        else .error (.syntacticError (peekT toks)))
      expectT .semicolon toks
    | .kwVar => parseVarDef fuel toks
    | .kwIf => parseIf fuel toks
    | .kwFrom => parseFrom fuel toks
    | .kwPrint => parsePrint fuel toks
    | .kwReturn => parseReturn fuel toks
    | t => .error (.syntacticError t)

/-- `Program.__init__`: statements until `END`. -/
def parseProgram : Nat → List TokType → Except PErr Unit
  | 0, _ => .error .outOfFuel
  | fuel + 1, toks =>
    if peekT toks == .tEnd then .ok ()
    else do
      let toks ← parseProgramGetNode fuel toks
      parseProgram fuel toks

/-! ### Lexer fragments: `lexical_analysis.py`

The character stream is embedded as a `List Char`; at end of file the
reader peek yields the empty string, embedded as `none` (it is not a digit,
not a bound, and equal to no character).  Error message texts are
abbreviated; the embedding distinguishes the exception *classes*: a
`make_error` call raises `LexicalError`, while an invalid calendar value
raises the `ValueError` from `DateValue.__init__` / `TimeValue.__init__` /
`DateTimeValue.__init__` (which the sub-lexer only guards with
`except error_handling.LexicalError`, so it propagates as `ValueError`). -/

inductive LErr where
  | lexicalError (msg : String)
  | valueError (msg : String)
deriving Repr, DecidableEq

/-- Tokens produced by the embedded sub-lexers. -/
inductive LToken where
  | number (n : Int)
  | date (d : PyDate)
  | time (t : PyTime)
  | datetime (dt : PyDateTime)
  | string (s : String)
deriving Repr, DecidableEq

def peekC : List Char → Option Char
  | [] => none
  | c :: _ => some c

def getC : List Char → List Char
  | [] => []
  | _ :: r => r

def isDigitOpt : Option Char → Bool
  | some c => c.isDigit
  | none => false

def digitVal (c : Char) : Int := (c.toNat : Int) - 48

/-- The digit-consuming loop of `NumberLiteralSubLexer.get`: the counter
starts at 1 for the first character and the 257th digit raises a lexical
error; `remaining` is `256 - counter`. -/
def numberLoop : Nat → Int → List Char → Except LErr (Int × List Char)
  | remaining, acc, c :: rest =>
    if c.isDigit then
      match remaining with
      | 0 => .error (.lexicalError "Digit is too long. Maximum size is 256 characters")
      | r + 1 => numberLoop r (acc * 10 + digitVal c) rest
    else .ok (acc, c :: rest)
  | _, acc, [] => .ok (acc, [])

/-- `NumberLiteralSubLexer.get` (entered with a digit as the next
character): a single leading `0` is the whole number. -/
def numberGet : List Char → Except LErr (Int × List Char)
  | [] => .ok (0, [])
  | c :: rest =>
    if c == '0' then .ok (0, rest)
    else numberLoop 255 (digitVal c) rest

/-- `NumericalLiteralSubLexer._get_two_digits`. -/
def getTwoDigits (cs : List Char) : Except LErr (Int × List Char) :=
  match cs with
  | c1 :: c2 :: rest =>
    if ¬c1.isDigit then .error (.lexicalError "Unexpected character, expected digit")
    else if ¬c2.isDigit then .error (.lexicalError "Unexpected digit")
    else .ok (digitVal c1 * 10 + digitVal c2, rest)
  | [c1] =>
    if ¬c1.isDigit then .error (.lexicalError "Unexpected character, expected digit")
    else .error (.lexicalError "Unexpected digit")
  | [] => .error (.lexicalError "Unexpected character, expected digit")

/-- `NumericalLiteralSubLexer._check_for_character`. -/
def checkForCharacter (ch : Char) (cs : List Char) : Except LErr (List Char) :=
  if peekC cs == some ch then .ok (getC cs)
  else .error (.lexicalError "Unexpected character")

/-- `NumericalLiteralSubLexer._get_date_or_datetime_token` (entered with
the lookahead being the first `.`): `DD.MM.YYYY`, optionally
`~HH:MM:SS`.  Calendar validation happens in the `DateValue` /
`DateTimeValue` constructors, which raise `ValueError`; the
`except error_handling.LexicalError` around them does not catch it. -/
def getDateOrDatetime (firstValue : Int) (cs : List Char) : Except LErr (LToken × List Char) := do
  let cs := getC cs
  let (month, cs) ← getTwoDigits cs
  let cs ← checkForCharacter '.' cs
  let (y1, cs) ← getTwoDigits cs
  let (y2, cs) ← getTwoDigits cs
  let year := y1 * 100 + y2
  if peekC cs != some '~' then
    if (PyDate.mk year month firstValue).valid then
      .ok (.date ⟨year, month, firstValue⟩, cs)
    else .error (.valueError "day is out of range for month")
  else do
    let cs := getC cs
    let (hour, cs) ← getTwoDigits cs
    let cs ← checkForCharacter ':' cs
    let (minute, cs) ← getTwoDigits cs
    let cs ← checkForCharacter ':' cs
    let (second, cs) ← getTwoDigits cs
    if (PyDate.mk year month firstValue).valid ∧ (PyTime.mk hour minute second).valid then
      .ok (.datetime ⟨⟨year, month, firstValue⟩, ⟨hour, minute, second⟩⟩, cs)
    else .error (.valueError "invalid datetime component")

/-- `NumericalLiteralSubLexer._get_hour_token` (entered with the lookahead
being the first `:`): `HH:MM:SS` with `TimeValue` validation. -/
def getHourToken (firstValue : Int) (cs : List Char) : Except LErr (LToken × List Char) := do
  let cs := getC cs
  let (minute, cs) ← getTwoDigits cs
  let cs ← checkForCharacter ':' cs
  let (second, cs) ← getTwoDigits cs
  if (PyTime.mk firstValue minute second).valid then
    .ok (.time ⟨firstValue, minute, second⟩, cs)
  else .error (.valueError "invalid time component")

/-- `NumericalLiteralSubLexer.get`: number first; a digit right after a
lone `0` becomes the first component of a date/time literal; a single
digit not followed by `.`/`:` stands alone; then dispatch on `.` / `:`. -/
def numericalGet (cs : List Char) : Except LErr (LToken × List Char) := do
  let (numVal, cs0) ← numberGet cs
  let step : Int × List Char ⊕ Int × List Char :=
    match peekC cs0 with
    | some c =>
      if c.isDigit then .inl (digitVal c, getC cs0)
      else if numVal < 10 then .inr (numVal, cs0)
      else .inl (numVal, cs0)
    | none =>
      if numVal < 10 then .inr (numVal, cs0)
      else .inl (numVal, cs0)
  match step with
  | .inr (n, cs1) => .ok (.number n, cs1)
  | .inl (firstValue, cs1) =>
    match peekC cs1 with
    | some '.' => getDateOrDatetime firstValue cs1
    | some ':' => getHourToken firstValue cs1
    | c =>
      if isDigitOpt c then .error (.lexicalError "Unexpected digit")
      else .ok (.number numVal, cs1)

/-- The scanning loop of `StringLiteralSubLexer.get`: stop (consuming the
bound) on an unescaped `"`; a `\` consumes the following character and
appends it verbatim; the 4097th appended character raises a lexical error
(`remaining` is `4096 - counter`); at end of file the reader returns empty
strings, so the loop spins without consuming until the length check fires. -/
def strLoop (r : Nat) (cs : List Char) (acc : String) : Except LErr (String × List Char) :=
  match cs, r with
  | c :: rest, r =>
    if c = '"' then .ok (acc, rest)
    else
      match r with
      | 0 => .error (.lexicalError "String literal is too long. Maximum size is 4096 characters")
      | r' + 1 =>
        if c = '\\' then
          match rest with
          | c2 :: rest' => strLoop r' rest' (acc.push c2)
          | [] => strLoop r' [] acc
        else strLoop r' rest (acc.push c)
  | [], 0 =>
    .error (.lexicalError "String literal is too long. Maximum size is 4096 characters")
  | [], r' + 1 => strLoop r' [] acc
termination_by r

/-- `StringLiteralSubLexer.get` (entered with the opening `"` as the next
character). -/
def stringGet (cs : List Char) : Except LErr (String × List Char) :=
  strLoop 4096 (getC cs) ""

/-- One piece of string-literal source text: either a plain character
(neither the bound nor the escape) or an escape sequence `\c`. -/
inductive StrItem where
  | raw (c : Char)
  | esc (c : Char)
deriving Repr, DecidableEq

def StrItem.encode : StrItem → List Char
  | .raw c => [c]
  | .esc c => ['\\', c]

/-- The character an item denotes: the escape backslash is discarded and
the escaped character kept verbatim. -/
def StrItem.decode : StrItem → Char
  | .raw c => c
  | .esc c => c

def StrItem.wf : StrItem → Bool
  | .raw c => c ≠ '"' && c ≠ '\\'
  | .esc _ => true

def encodeItems (l : List StrItem) : List Char :=
  l.foldr (fun i acc => i.encode ++ acc) []

def decodeItems (l : List StrItem) : List Char :=
  l.map StrItem.decode

/-- A timedelta with no sub-month component (only years/months). -/
def TimedeltaValue.subMonthZero (td : TimedeltaValue) : Bool :=
  td.weeks == 0 && td.days == 0 && td.hours == 0 && td.minutes == 0 && td.seconds == 0

/-- A timedelta with no month-scale component (only weeks and below). -/
def TimedeltaValue.monthFree (td : TimedeltaValue) : Bool :=
  td.years == 0 && td.months == 0

/-- Decidable equality for `Except` results, so that concrete runs of the
embedded functions can be checked by `decide`. -/
instance {ε α : Type} [DecidableEq ε] [DecidableEq α] : DecidableEq (Except ε α) := fun x y =>
  match x, y with
  | .ok a, .ok b =>
    if h : a = b then .isTrue (by rw [h]) else .isFalse (by intro he; cases he; exact h rfl)
  | .error a, .error b =>
    if h : a = b then .isTrue (by rw [h]) else .isFalse (by intro he; cases he; exact h rfl)
  | .ok _, .error _ => .isFalse (by intro he; cases he)
  | .error _, .ok _ => .isFalse (by intro he; cases he)

/-! ## Theorems -/

/-- C3: the claimed timedelta equality is not what the code computes.
`TimedeltaValue.__eq__` omits the `hours` field from its sub-month total
and scales days by `60*60`, so the timedelta of one day is *not* equal to
the timedelta of 24 hours (the claim says they are equal), while the
spec-side equality (weeks `7*24*3600`, days `24*3600`, hours `3600`)
deems them equal; moreover the code even equates one hour with two
hours. -/
theorem c3_timedelta_eq_drops_hours :
    TimedeltaValue.pyEq { days := 1 } { hours := 24 } = false ∧
    timedeltaEqSpec { days := 1 } { hours := 24 } = true ∧
    TimedeltaValue.pyEq { hours := 1 } { hours := 2 } = true ∧
    timedeltaEqSpec { hours := 1 } { hours := 2 } = false := by
  decide

/-- C8: `TimedeltaValue.__lt__` compares exactly the coarse keys
`total_months * 31 + sub_month_seconds / 86400` (floor), with the
sub-month duration counted at `7*24*3600` seconds per week, `24*3600` per
day, `3600` per hour, `60` per minute; consequently one month is strictly
below 32 days but not below 31 days. -/
theorem c8_timedelta_ordering_key :
    (∀ a b : TimedeltaValue,
      a.pyLt b = decide (timedeltaOrderKey a < timedeltaOrderKey b)) ∧
    TimedeltaValue.pyLt { months := 1 } { days := 32 } = true ∧
    TimedeltaValue.pyLt { months := 1 } { days := 31 } = false := by
  refine ⟨fun a b => ?_, by decide, by decide⟩
  have key : ∀ c : TimedeltaValue, timedeltaOrderKey c =
      (c.years * 12 + c.months) * 31 +
        (c.seconds + 60 * (c.minutes + 60 * (c.hours + 24 * (c.days + 7 * c.weeks)))) /
          (60 * 60 * 24) := by
    intro c
    unfold timedeltaOrderKey
    have h : c.weeks * (7 * 24 * 3600) + c.days * (24 * 3600) + c.hours * 3600 +
        c.minutes * 60 + c.seconds =
        c.seconds + 60 * (c.minutes + 60 * (c.hours + 24 * (c.days + 7 * c.weeks))) := by
      ring
    rw [h]
    norm_num
  simp only [TimedeltaValue.pyLt, key]

/-- C6: lexing the numeric literal `29.02.2019` (an invalid date: 2019 is
not a leap year) does not raise a `LexicalError` — `DateValue.__init__`
raises `ValueError` and the sub-lexer catches only
`error_handling.LexicalError`, so the `ValueError` escapes; a valid date
literal lexes normally. -/
theorem c6_invalid_date_literal_raises_valueerror :
    numericalGet ("29.02.2019".toList) = .error (.valueError "day is out of range for month") ∧
    numericalGet ("29.02.2020".toList) = .ok (.date ⟨2020, 2, 29⟩, []) ∧
    numericalGet ("29.02.2019".toList) ≠ .error (.lexicalError "day is out of range for month") := by
  refine ⟨by decide, by decide, by decide⟩

/-- C7: inside a `{ … }` body a bare identifier statement followed by `;`
is *accepted* by the parser (`Body._get_node` has no error branch after the
identifier), so the program `fun f ( ) { x ; } ;` parses, while the very
same bare identifier statement at top level raises a `SyntacticError`
(`Program._get_node` does have the error branch). -/
theorem c7_body_accepts_bare_identifier :
    parseProgram 30 [.kwFun, .identifier, .leftParenthesis, .rightParenthesis,
      .leftBracket, .identifier, .semicolon, .rightBracket, .semicolon] = .ok () ∧
    parseProgram 30 [.identifier, .semicolon] = .error (.syntacticError .semicolon) := by
  refine ⟨by decide, by decide⟩

/-- C1: executing the statement `from 1 to 0 by seconds as d { } ;` — a
`from` whose loop runs zero times — completes without jumping but leaves
the environment one scope deeper than before: `FromStatement.execute`
pushes a scope on entry and never pops it. -/
theorem c1_from_statement_leaks_scope :
    (execStmt 10 Env.initial
        (.fromStmt (.numberLit 1) (.numberLit 0) .seconds "d" [])).map
        (fun r => (r.1, r.2.2.depth)) = .ok (false, 2) ∧
    Env.initial.depth = 1 := by
  refine ⟨by decide, by decide⟩

/-- C5: calling a zero-parameter function with one argument
(`fun f ( ) { } ; return f ( 1 ) ;`) raises the bare `ValueError("TODO")`
from `FunctionCall.self_evaluate`, not an `ExecutionError`. -/
theorem c5_arity_mismatch_raises_valueerror_todo :
    (runProgram 100 [.funDef "f" [] [],
        .returnStmt (some (.call "f" [.numberLit 1]))]).map (fun r => r.1) =
      .error (.valueError "TODO") := by
  rfl

/-- C8 witness: the universal part of the ordering theorem applied to a
concrete pair (with a negative field, exercising floor division). -/
theorem c8_timedelta_ordering_key_witness :
    TimedeltaValue.pyLt { days := 20 } { months := 1, weeks := -1 } =
      decide (timedeltaOrderKey { days := 20 } <
        timedeltaOrderKey { months := 1, weeks := -1 }) :=
  c8_timedelta_ordering_key.1 _ _

/-- C2 counterexample: in `var a = 5; fun f(a){ return a; }; return f(a);`
the argument expression `a` does *not* receive the caller binding `5` (the
claim says it must): it is evaluated after the callee scope was pushed with
parameter `a` declared, so the run fails with the uninitialized-variable
`ExecutionError`. -/
theorem c2_counterexample :
    (runProgram 100 [.varDef "a" (some (.numberLit 5)),
        .funDef "f" ["a"] [.returnStmt (some (.ident "a"))],
        .returnStmt (some (.call "f" [.ident "a"]))]).map (fun r => r.1) =
      .error (.executionError "a" "Variable a uninitialized") := by
  rfl

/-- C2 (amended): `FunctionCall.self_evaluate` pushes the callee scope and
declares the parameters *before* evaluating the arguments, so an argument
reading a name that coincides with a callee parameter sees the freshly
declared, uninitialized parameter — regardless of any binding for that name
in the caller environment — and the call fails with the
uninitialized-variable `ExecutionError` citing that identifier. -/
theorem c2_amended_args_eval_in_callee_scope (fuel : Nat) (env : Env)
    (f p : String) (body : List Stmt)
    (hf : env.getFun f = .ok ([p], body)) :
    evalExpr (fuel + 4) env (.call f [.ident p]) =
      .error (.executionError p ("Variable " ++ p ++ " uninitialized")) := by
  show evalCall (fuel + 3) env f [.ident p] = _
  rw [show fuel + 3 = (fuel + 2) + 1 from rfl]
  unfold evalCall
  rw [show Env.getFun env f = .ok ([p], body) from hf]
  simp only [List.length_cons, List.length_nil, List.length_singleton, ne_eq,
    List.zip_cons_cons, List.zip_nil_right]
  rw [if_neg (by simp)]
  have harg : evalExpr (fuel + 1) (Env.addVar (Env.pushScope env) p) (.ident p) =
      .error (.executionError p ("Variable " ++ p ++ " uninitialized")) := by
    rw [show fuel + 1 = fuel + 1 from rfl]
    unfold evalExpr
    simp [Env.getVar, Env.addVar, Env.pushScope, getVarInScopes, lookupA, setA]
  unfold bindArgs
  simp only [List.foldl]
  rw [harg]
  rfl

/-- C2 amended witness: the theorem applied to a one-parameter function
`f(a)` with an empty body in an environment where `f` is bound. -/
theorem c2_amended_args_eval_in_callee_scope_witness :
    evalExpr 4 (Env.initial.setFun "f" (["a"], [])) (.call "f" [.ident "a"]) =
      .error (.executionError "a" "Variable a uninitialized") :=
  c2_amended_args_eval_in_callee_scope 0 (Env.initial.setFun "f" (["a"], []))
    "f" "a" [] (by rfl)

/-- Month lengths are at least 28. -/
lemma daysInMonth_ge (y m : Int) : 28 ≤ daysInMonth y m := by
  unfold daysInMonth
  split
  · split <;> norm_num
  · split <;> norm_num

/-- Month lengths are at most 31. -/
lemma daysInMonth_le (y m : Int) : daysInMonth y m ≤ 31 := by
  unfold daysInMonth
  split
  · split <;> norm_num
  · split <;> norm_num

/-- February has at most 29 days. -/
lemma daysInMonth_feb_le (y : Int) : daysInMonth y 2 ≤ 29 := by
  unfold daysInMonth
  norm_num
  split <;> norm_num

/-- Only the length of February depends on the year. -/
lemma daysInMonth_ne_two (y y' m : Int) (h : m ≠ 2) :
    daysInMonth y m = daysInMonth y' m := by
  unfold daysInMonth
  simp [h]

/-- A successful months step computes exactly the claimed clamped month
shift. -/
lemma addMonthsCode_some {d : PyDate} {m : Int} {d1 : PyDate} {c1 : Bool}
    (h : addMonthsCode d m = some (d1, c1)) :
    d1 = specClampAddMonths d m ∧ 1 ≤ d1.year ∧ d1.year ≤ 9999 := by
  dsimp only [addMonthsCode] at h
  split at h
  case isTrue hy =>
    simp only [Option.some.injEq, Prod.mk.injEq] at h
    obtain ⟨hd, -⟩ := h
    subst hd
    exact ⟨rfl, hy.1, hy.2⟩
  case isFalse => exact Option.noConfusion h

/-- The months step leaves the day within the length of the month it
lands on, and the month within `1..12`. -/
lemma specClampAddMonths_bounds (d : PyDate) (m : Int) :
    (specClampAddMonths d m).day ≤
        daysInMonth (specClampAddMonths d m).year (specClampAddMonths d m).month ∧
      1 ≤ (specClampAddMonths d m).month ∧ (specClampAddMonths d m).month ≤ 12 := by
  refine ⟨min_le_right _ _, ?_, ?_⟩ <;>
    · dsimp only [specClampAddMonths]
      omega

/-- Characterization of a successful year step: either the day fits the
target month and everything but the year is kept, or the Feb-29 fallback
clamps to Feb 28. -/
lemma addYearsCode_some {d1 : PyDate} {y : Int} {d2 : PyDate} {c2 : Bool}
    (h : addYearsCode d1 y = some (d2, c2)) :
    1 ≤ d1.year + y ∧ d1.year + y ≤ 9999 ∧
      ((d1.day ≤ daysInMonth (d1.year + y) d1.month ∧
          d2 = ⟨d1.year + y, d1.month, d1.day⟩ ∧ c2 = false) ∨
        (¬d1.day ≤ daysInMonth (d1.year + y) d1.month ∧
          d2 = ⟨d1.year + y, 2, 28⟩ ∧ c2 = true)) := by
  dsimp only [addYearsCode] at h
  split at h
  case isTrue hc =>
    simp only [Option.some.injEq, Prod.mk.injEq] at h
    obtain ⟨hd, hc2⟩ := h
    exact ⟨hc.1, hc.2.1, .inl ⟨hc.2.2, hd.symm, hc2.symm⟩⟩
  case isFalse hc =>
    split at h
    case isTrue hc2 =>
      simp only [Option.some.injEq, Prod.mk.injEq] at h
      obtain ⟨hd, hcc⟩ := h
      refine ⟨hc2.1, hc2.2, .inr ⟨?_, hd.symm, hcc.symm⟩⟩
      intro hle
      exact hc ⟨hc2.1, hc2.2, hle⟩
    case isFalse => exact Option.noConfusion h

/-- C4 counterexample: adding the timedelta of 1 year and 1 month to the
date 30.01.2019.  The code yields 28.02.2020 (months applied first: 28 Feb
2019 clamped, then the year step), while the claimed years-first procedure
yields 29.02.2020 (30.01.2020, then clamped into leap-February), so the
claimed order is not what the code does. -/
theorem c4_counterexample :
    (dateAddTd ⟨2019, 1, 30⟩ { years := 1, months := 1 }).map (fun p => p.1.date) =
      some ⟨2020, 2, 28⟩ ∧
    specYearsThenMonths ⟨2019, 1, 30⟩ 1 1 = ⟨2020, 2, 29⟩ ∧
    (⟨2020, 2, 28⟩ : PyDate) ≠ ⟨2020, 2, 29⟩ := by
  decide

/-- C4 (amended): date-plus-timedelta applies the *months* component first
and then the *years* component, each step clamping the day to the last day
of the target month when it is shorter; in particular 29.02.2020 + 1 year
= 28.02.2021 and 31.05.2020 + 1 month = 30.06.2020. -/
theorem c4_amended_months_then_years :
    (∀ (d : PyDate) (y m : Int) (r : PyDate) (c : Bool),
      addYearsAndMonthsCode d y m = some (r, c) →
        r = specClampAddYears (specClampAddMonths d m) y) ∧
    (dateAddTd ⟨2020, 2, 29⟩ { years := 1 }).map (fun p => p.1.date) =
      some ⟨2021, 2, 28⟩ ∧
    (dateAddTd ⟨2020, 5, 31⟩ { months := 1 }).map (fun p => p.1.date) =
      some ⟨2020, 6, 30⟩ := by
  refine ⟨?_, by decide, by decide⟩
  intro d y m r c h
  cases h1 : addMonthsCode d m with
  | none => simp only [addYearsAndMonthsCode, h1] at h; exact Option.noConfusion h
  | some p1 =>
    obtain ⟨d1, c1⟩ := p1
    cases h2 : addYearsCode d1 y with
    | none =>
      simp only [addYearsAndMonthsCode, h1, h2] at h
      exact Option.noConfusion h
    | some p2 =>
      obtain ⟨d2, c2⟩ := p2
      simp only [addYearsAndMonthsCode, h1, h2, Option.some.injEq, Prod.mk.injEq] at h
      obtain ⟨hr, -⟩ := h
      subst hr
      obtain ⟨hd1, -, -⟩ := addMonthsCode_some h1
      subst hd1
      obtain ⟨hday, -, -⟩ := specClampAddMonths_bounds d m
      set d1 := specClampAddMonths d m with hd1def
      obtain ⟨-, -, hcase⟩ := addYearsCode_some h2
      rcases hcase with ⟨hle, hd2, -⟩ | ⟨hgt, hd2, -⟩
      · subst hd2
        unfold specClampAddYears
        rw [min_eq_left hle]
      · subst hd2
        have hm2 : d1.month = 2 := by
          by_contra hne
          rw [daysInMonth_ne_two d1.year (d1.year + y) d1.month hne] at hday
          exact hgt hday
        have h29 : d1.day = 29 := by
          have hA := daysInMonth_feb_le d1.year
          have hB := daysInMonth_ge (d1.year + y) 2
          rw [hm2] at hday hgt
          omega
        have hfeb : daysInMonth (d1.year + y) 2 = 28 := by
          have hA := daysInMonth_feb_le (d1.year + y)
          have hB := daysInMonth_ge (d1.year + y) 2
          rw [hm2] at hgt
          omega
        unfold specClampAddYears
        rw [hm2, h29, hfeb]
        rfl

/-- C4 amended witness: the universal part applied at the counterexample
input (where the fallback clamp fires). -/
theorem c4_amended_months_then_years_witness :
    addYearsAndMonthsCode ⟨2019, 1, 30⟩ 1 1 = some (⟨2020, 2, 28⟩, true) ∧
    (⟨2020, 2, 28⟩ : PyDate) =
      specClampAddYears (specClampAddMonths ⟨2019, 1, 30⟩ 1) 1 :=
  ⟨by decide,
    c4_amended_months_then_years.1 ⟨2019, 1, 30⟩ 1 1 ⟨2020, 2, 28⟩ true (by decide)⟩

/-- The string-literal scanning loop maps each well-formed item — a plain
character or an escape sequence — to its denoted character, stopping at the
unescaped closing bound. -/
lemma strLoop_encode (items : List StrItem) :
    ∀ (r : Nat) (acc : String) (rest : List Char),
      items.all StrItem.wf = true → items.length ≤ r →
      strLoop r (encodeItems items ++ '"' :: rest) acc =
        .ok (⟨acc.data ++ decodeItems items⟩, rest) := by
  induction items with
  | nil =>
    intro r acc rest _ _
    show strLoop r ('"' :: rest) acc = _
    rw [strLoop.eq_def]
    simp [decodeItems]
  | cons i t ih =>
    intro r acc rest hwf hlen
    simp only [List.all_cons, Bool.and_eq_true] at hwf
    obtain ⟨hi, ht⟩ := hwf
    cases r with
    | zero => simp at hlen
    | succ r' =>
      have hlen' : t.length ≤ r' := by simpa using hlen
      cases i with
      | raw c =>
        simp only [StrItem.wf, ne_eq, Bool.and_eq_true, decide_eq_true_eq] at hi
        obtain ⟨hq, hb⟩ := hi
        show strLoop (r' + 1) (c :: (encodeItems t ++ '"' :: rest)) acc = _
        rw [strLoop.eq_def]
        simp only [if_neg hq, if_neg hb]
        rw [ih r' (acc.push c) rest ht hlen']
        simp [decodeItems, String.push, StrItem.decode]
      | esc c =>
        show strLoop (r' + 1) ('\\' :: c :: (encodeItems t ++ '"' :: rest)) acc = _
        rw [strLoop.eq_def]
        simp only [reduceIte, reduceCtorEq]
        rw [ih r' (acc.push c) rest ht hlen']
        simp [decodeItems, String.push, StrItem.decode]

/-- C10: inside a string literal, a backslash escapes *whatever* single
character follows it: for any sequence of at most 4096 items, each either a
plain character (not the quote, not a backslash) or an escape sequence
backslash-`c` for an arbitrary character `c`, the string sub-lexer returns
the string of denoted characters — the backslash itself discarded, the
escaped character (quote, backslash, letter n, anything) appended verbatim,
never treated as the closing quote — and consumes exactly up to the next
unescaped closing quote. -/
theorem c10_string_escape_any_char (items : List StrItem) (rest : List Char)
    (hwf : items.all StrItem.wf = true) (hlen : items.length ≤ 4096) :
    stringGet ('"' :: (encodeItems items ++ '"' :: rest)) =
      .ok (⟨decodeItems items⟩, rest) := by
  show strLoop 4096 (encodeItems items ++ '"' :: rest) "" = _
  rw [strLoop_encode items 4096 "" rest hwf hlen]
  rfl

/-- C10 witness: the source content backslash-quote, backslash-backslash,
backslash-n, `a` lexes to the four characters quote, backslash, `n`, `a`,
leaving the input after the closing quote untouched. -/
theorem c10_string_escape_any_char_witness :
    stringGet ('"' :: (encodeItems [.esc '"', .esc '\\', .esc 'n', .raw 'a'] ++
        '"' :: ['x'])) =
      .ok (⟨['"', '\\', 'n', 'a']⟩, ['x']) :=
  c10_string_escape_any_char [.esc '"', .esc '\\', .esc 'n', .raw 'a'] ['x']
    (by decide) (by decide)

/-- C9 counterexample: for the valid date 15.01.2019 and the timedelta of
1 month and 20 days, no day-of-month clamping occurs in `d + td` (which is
07.03.2019) nor in subtracting `td` back, yet `(d + td) − td` is
18.01.2019 — neither equal to `d` (the claim asserts equality in the
no-clamping case) nor `≤ d` in the value ordering. -/
theorem c9_counterexample :
    (⟨2019, 1, 15⟩ : PyDate).valid = true ∧
    dateAddTd ⟨2019, 1, 15⟩ { months := 1, days := 20 } =
      some (⟨⟨2019, 3, 7⟩, midnight⟩, false) ∧
    dtSubTd ⟨⟨2019, 3, 7⟩, midnight⟩ { months := 1, days := 20 } =
      some (⟨⟨2019, 1, 18⟩, midnight⟩, false) ∧
    dtEqDate ⟨⟨2019, 1, 18⟩, midnight⟩ ⟨2019, 1, 15⟩ = false ∧
    dtLeDate ⟨⟨2019, 1, 18⟩, midnight⟩ ⟨2019, 1, 15⟩ = false := by
  decide

lemma daysInMonth_twelve (y : Int) : daysInMonth y 12 = 31 := by
  simp [daysInMonth]

lemma nextDay_valid_some {d e : PyDate} (hv : d.valid = true) (h : nextDay d = some e) :
    e.valid = true ∧ prevDay e = some d := by
  obtain ⟨yy, mm, dd⟩ := d
  simp only [PyDate.valid, Bool.and_eq_true, decide_eq_true_eq] at hv
  obtain ⟨⟨⟨⟨⟨hy1, hy2⟩, hm1⟩, hm2⟩, hd1⟩, hd2⟩ := hv
  unfold nextDay at h
  simp only at h
  split at h
  case isTrue hlt =>
    obtain rfl := Option.some.inj h
    have hub := daysInMonth_le yy mm
    refine ⟨?_, ?_⟩
    · simp only [PyDate.valid, Bool.and_eq_true, decide_eq_true_eq]
      and_intros <;> first | trivial | omega
    · unfold prevDay
      simp only
      rw [if_pos (show (1 : Int) < dd + 1 by omega)]
      simp only [Option.some.injEq, PyDate.mk.injEq]
      and_intros <;> first | trivial | omega
  case isFalse hge =>
    split at h
    case isTrue hm =>
      obtain rfl := Option.some.inj h
      have hlen := daysInMonth_ge yy (mm + 1)
      refine ⟨?_, ?_⟩
      · simp only [PyDate.valid, Bool.and_eq_true, decide_eq_true_eq]
        and_intros <;> first | trivial | omega
      · unfold prevDay
        simp only
        rw [if_neg (show ¬(1 : Int) < 1 by omega), if_pos (show (1 : Int) < mm + 1 by omega)]
        simp only [Option.some.injEq, PyDate.mk.injEq]
        have he : mm + 1 - 1 = mm := by omega
        rw [he]
        and_intros <;> first | trivial | omega
    case isFalse hm12 =>
      split at h
      case isTrue hy =>
        obtain rfl := Option.some.inj h
        have h12 : mm = 12 := by omega
        have hlen12 := daysInMonth_twelve yy
        have hlen1 := daysInMonth_ge (yy + 1) 1
        refine ⟨?_, ?_⟩
        · simp only [PyDate.valid, Bool.and_eq_true, decide_eq_true_eq]
          and_intros <;> first | trivial | omega
        · unfold prevDay
          simp only
          rw [if_neg (show ¬(1 : Int) < 1 by omega), if_neg (show ¬(1 : Int) < 1 by omega),
            if_pos (show (1 : Int) < yy + 1 by omega)]
          simp only [Option.some.injEq, PyDate.mk.injEq]
          rw [h12] at hd2 hge
          rw [hlen12] at hd2 hge
          and_intros <;> first | trivial | omega
      case isFalse => exact Option.noConfusion h

lemma prevDay_valid_some {d e : PyDate} (hv : d.valid = true) (h : prevDay d = some e) :
    e.valid = true ∧ nextDay e = some d := by
  obtain ⟨yy, mm, dd⟩ := d
  simp only [PyDate.valid, Bool.and_eq_true, decide_eq_true_eq] at hv
  obtain ⟨⟨⟨⟨⟨hy1, hy2⟩, hm1⟩, hm2⟩, hd1⟩, hd2⟩ := hv
  unfold prevDay at h
  simp only at h
  split at h
  case isTrue hlt =>
    obtain rfl := Option.some.inj h
    refine ⟨?_, ?_⟩
    · simp only [PyDate.valid, Bool.and_eq_true, decide_eq_true_eq]
      and_intros <;> first | trivial | omega
    · unfold nextDay
      simp only
      rw [if_pos (show dd - 1 < daysInMonth yy mm by omega)]
      simp only [Option.some.injEq, PyDate.mk.injEq]
      and_intros <;> first | trivial | omega
  case isFalse hge =>
    split at h
    case isTrue hm =>
      obtain rfl := Option.some.inj h
      have hlen := daysInMonth_ge yy (mm - 1)
      have hub := daysInMonth_le yy (mm - 1)
      refine ⟨?_, ?_⟩
      · simp only [PyDate.valid, Bool.and_eq_true, decide_eq_true_eq]
        and_intros <;> first | trivial | omega
      · unfold nextDay
        simp only
        rw [if_neg (show ¬daysInMonth yy (mm - 1) < daysInMonth yy (mm - 1) by omega),
          if_pos (show mm - 1 < 12 by omega)]
        simp only [Option.some.injEq, PyDate.mk.injEq]
        and_intros <;> first | trivial | omega
    case isFalse hm1' =>
      split at h
      case isTrue hy =>
        obtain rfl := Option.some.inj h
        have h1 : mm = 1 := by omega
        have hd1' : dd = 1 := by omega
        have hlen12 := daysInMonth_twelve (yy - 1)
        refine ⟨?_, ?_⟩
        · simp only [PyDate.valid, Bool.and_eq_true, decide_eq_true_eq]
          and_intros <;> first | trivial | omega
        · unfold nextDay
          simp only
          rw [hlen12]
          rw [if_neg (show ¬(31 : Int) < 31 by omega), if_neg (show ¬(12 : Int) < 12 by omega),
            if_pos (show yy - 1 < 9999 by omega)]
          simp only [Option.some.injEq, PyDate.mk.injEq]
          and_intros <;> first | trivial | omega
      case isFalse => exact Option.noConfusion h

lemma addDaysNat_succ (n : Nat) (d : PyDate) :
    addDaysNat (n + 1) d = (addDaysNat n d).bind nextDay := by
  induction n generalizing d with
  | zero => cases h : nextDay d <;> simp [addDaysNat, h]
  | succ n ih =>
    show (nextDay d).bind (addDaysNat (n + 1)) = _
    cases h : nextDay d with
    | none => simp [addDaysNat, h]
    | some d' =>
      simp only [Option.some_bind]
      rw [ih d']
      show _ = ((nextDay d).bind (addDaysNat n)).bind nextDay
      rw [h, Option.some_bind]

lemma subDaysNat_succ (n : Nat) (d : PyDate) :
    subDaysNat (n + 1) d = (subDaysNat n d).bind prevDay := by
  induction n generalizing d with
  | zero => cases h : prevDay d <;> simp [subDaysNat, h]
  | succ n ih =>
    show (prevDay d).bind (subDaysNat (n + 1)) = _
    cases h : prevDay d with
    | none => simp [subDaysNat, h]
    | some d' =>
      simp only [Option.some_bind]
      rw [ih d']
      show _ = ((prevDay d).bind (subDaysNat n)).bind prevDay
      rw [h, Option.some_bind]

lemma addDaysNat_inv (n : Nat) :
    ∀ {d e : PyDate}, d.valid = true → addDaysNat n d = some e →
      e.valid = true ∧ subDaysNat n e = some d := by
  induction n with
  | zero =>
    intro d e hv h
    obtain rfl := Option.some.inj h
    exact ⟨hv, rfl⟩
  | succ n ih =>
    intro d e hv h
    rw [addDaysNat_succ] at h
    cases h1 : addDaysNat n d with
    | none => rw [h1] at h; exact Option.noConfusion h
    | some mid =>
      rw [h1, Option.some_bind] at h
      obtain ⟨hmidv, hsub⟩ := ih hv h1
      obtain ⟨hev, hprev⟩ := nextDay_valid_some hmidv h
      refine ⟨hev, ?_⟩
      show (prevDay e).bind (subDaysNat n) = some d
      rw [hprev, Option.some_bind, hsub]

lemma subDaysNat_inv (n : Nat) :
    ∀ {d e : PyDate}, d.valid = true → subDaysNat n d = some e →
      e.valid = true ∧ addDaysNat n e = some d := by
  induction n with
  | zero =>
    intro d e hv h
    obtain rfl := Option.some.inj h
    exact ⟨hv, rfl⟩
  | succ n ih =>
    intro d e hv h
    rw [subDaysNat_succ] at h
    cases h1 : subDaysNat n d with
    | none => rw [h1] at h; exact Option.noConfusion h
    | some mid =>
      rw [h1, Option.some_bind] at h
      obtain ⟨hmidv, hsub⟩ := ih hv h1
      obtain ⟨hev, hnext⟩ := prevDay_valid_some hmidv h
      refine ⟨hev, ?_⟩
      show (nextDay e).bind (addDaysNat n) = some d
      rw [hnext, Option.some_bind, hsub]

lemma addDays_inv {d e : PyDate} {k : Int} (hv : d.valid = true)
    (h : addDays d k = some e) :
    e.valid = true ∧ addDays e (-k) = some d := by
  unfold addDays at h ⊢
  by_cases hk : 0 ≤ k
  · rw [if_pos hk] at h
    obtain ⟨hev, hsub⟩ := addDaysNat_inv k.toNat hv h
    rcases eq_or_lt_of_le hk with heq | hpos
    · obtain rfl : k = 0 := heq.symm
      simp only [addDaysNat] at h
      obtain rfl := Option.some.inj h
      rw [if_pos (by omega)]
      exact ⟨hev, by simp [addDaysNat]⟩
    · rw [if_neg (by omega)]
      refine ⟨hev, ?_⟩
      have : (-(-k)).toNat = k.toNat := by omega
      rw [this]
      exact hsub
  · rw [if_neg hk] at h
    obtain ⟨hev, hadd⟩ := subDaysNat_inv (-k).toNat hv h
    rw [if_pos (by omega)]
    refine ⟨hev, ?_⟩
    have : (-k).toNat = (-k).toNat := rfl
    exact hadd

lemma shiftSeconds_inv {dt dt2 : PyDateTime} {s : Int} (hv : dt.valid = true)
    (h : shiftSeconds dt s = some dt2) :
    dt2.valid = true ∧ shiftSeconds dt2 (-s) = some dt := by
  obtain ⟨d, t⟩ := dt
  obtain ⟨hh, mm, ss⟩ := t
  simp only [PyDateTime.valid, Bool.and_eq_true] at hv
  obtain ⟨hdv, htv⟩ := hv
  simp only [PyTime.valid, Bool.and_eq_true, decide_eq_true_eq] at htv
  unfold shiftSeconds PyTime.toSeconds at h
  simp only at h
  set X := hh * 3600 + mm * 60 + ss + s with hX
  set Q := X / 86400 with hQ
  set R := X % 86400 with hR
  cases h1 : addDays d Q with
  | none => rw [h1] at h; exact Option.noConfusion h
  | some d2 =>
    rw [h1] at h
    simp only [Option.map_some'] at h
    obtain rfl := Option.some.inj h
    obtain ⟨hd2v, hback⟩ := addDays_inv hdv h1
    refine ⟨?_, ?_⟩
    · simp only [PyDateTime.valid, Bool.and_eq_true]
      refine ⟨hd2v, ?_⟩
      simp only [PyTime.valid, Bool.and_eq_true, decide_eq_true_eq]
      and_intros <;> omega
    · unfold shiftSeconds PyTime.toSeconds
      simp only
      have hT2 : R / 3600 * 3600 + R % 3600 / 60 * 60 + R % 60 = R := by omega
      rw [hT2]
      have hq2 : (R + -s) / 86400 = -Q := by omega
      have hr2 : (R + -s) % 86400 = hh * 3600 + mm * 60 + ss := by omega
      rw [hq2, hr2, hback]
      simp only [Option.map_some', Option.some.injEq]
      have h3 : (hh * 3600 + mm * 60 + ss) / 3600 = hh := by omega
      have h4 : (hh * 3600 + mm * 60 + ss) % 3600 / 60 = mm := by omega
      have h5 : (hh * 3600 + mm * 60 + ss) % 60 = ss := by omega
      rw [h3, h4, h5]

lemma shiftSeconds_zero {dt : PyDateTime} (hv : dt.valid = true) :
    shiftSeconds dt 0 = some dt := by
  obtain ⟨d, t⟩ := dt
  obtain ⟨hh, mm, ss⟩ := t
  simp only [PyDateTime.valid, Bool.and_eq_true] at hv
  obtain ⟨hdv, htv⟩ := hv
  simp only [PyTime.valid, Bool.and_eq_true, decide_eq_true_eq] at htv
  unfold shiftSeconds PyTime.toSeconds
  simp only
  have h1 : (hh * 3600 + mm * 60 + ss + 0) / 86400 = 0 := by omega
  have h2 : (hh * 3600 + mm * 60 + ss + 0) % 86400 / 3600 = hh := by omega
  have h3 : (hh * 3600 + mm * 60 + ss + 0) % 86400 % 3600 / 60 = mm := by omega
  have h4 : (hh * 3600 + mm * 60 + ss + 0) % 86400 % 60 = ss := by omega
  rw [h1, h2, h3, h4]
  have h5 : addDays d 0 = some d := by
    unfold addDays
    rw [if_pos (by omega)]
    simp [addDaysNat]
  rw [h5]
  simp only [Option.map_some']

lemma specClampAddMonths_midx (d : PyDate) (m : Int) :
    (specClampAddMonths d m).year * 12 + (specClampAddMonths d m).month =
      d.year * 12 + d.month + m := by
  dsimp only [specClampAddMonths]
  omega

lemma specClampAddMonths_day_le (d : PyDate) (m : Int) :
    (specClampAddMonths d m).day ≤ d.day := by
  dsimp only [specClampAddMonths]
  exact min_le_left _ _

lemma specClampAddMonths_day_ge {d : PyDate} (m : Int) (h1 : 1 ≤ d.day) :
    1 ≤ (specClampAddMonths d m).day := by
  have := daysInMonth_ge (d.year + (d.month - 1 + m) / 12) ((d.month - 1 + m) % 12 + 1)
  dsimp only [specClampAddMonths]
  omega

lemma addMonthsCode_flag {d : PyDate} {m : Int} {d1 : PyDate} {c1 : Bool}
    (h : addMonthsCode d m = some (d1, c1)) : c1 = decide (d1.day < d.day) := by
  dsimp only [addMonthsCode] at h
  split at h
  case isTrue => 
    simp only [Option.some.injEq, Prod.mk.injEq] at h
    obtain ⟨hd, hc⟩ := h
    subst hd
    exact hc.symm
  case isFalse => exact Option.noConfusion h

lemma addYearsAndMonthsCode_props {d : PyDate} {y m : Int} {d2 : PyDate} {c : Bool}
    (hv : d.valid = true) (h : addYearsAndMonthsCode d y m = some (d2, c)) :
    d2.valid = true ∧
      d2.year * 12 + d2.month = d.year * 12 + d.month + m + 12 * y ∧
      d2.day ≤ d.day ∧ (c = false → d2.day = d.day) := by
  have hv' := hv
  simp only [PyDate.valid, Bool.and_eq_true, decide_eq_true_eq] at hv'
  obtain ⟨⟨⟨⟨⟨hy1, hy2⟩, hm1⟩, hm2⟩, hd1⟩, hd2⟩ := hv'
  cases h1 : addMonthsCode d m with
  | none => simp only [addYearsAndMonthsCode, h1] at h; exact Option.noConfusion h
  | some p1 =>
    obtain ⟨d1, c1⟩ := p1
    cases h2 : addYearsCode d1 y with
    | none =>
      simp only [addYearsAndMonthsCode, h1, h2] at h
      exact Option.noConfusion h
    | some p2 =>
      obtain ⟨e2, c2⟩ := p2
      simp only [addYearsAndMonthsCode, h1, h2, Option.some.injEq, Prod.mk.injEq] at h
      obtain ⟨hr, hc⟩ := h
      subst hr
      subst hc
      have hflag := addMonthsCode_flag h1
      obtain ⟨hd1eq, hy1', hy2'⟩ := addMonthsCode_some h1
      subst hd1eq
      obtain ⟨hble, hbm1, hbm2⟩ := specClampAddMonths_bounds d m
      have hmidx := specClampAddMonths_midx d m
      have hdayle := specClampAddMonths_day_le d m
      have hdayge := specClampAddMonths_day_ge m hd1
      set d1 := specClampAddMonths d m with hd1def
      obtain ⟨hyr1, hyr2, hcase⟩ := addYearsCode_some h2
      rcases hcase with ⟨hle, he2, hc2⟩ | ⟨hgt, he2, hc2⟩
      · have hyE : e2.year = d1.year + y := by rw [he2]
        have hmE : e2.month = d1.month := by rw [he2]
        have hdE : e2.day = d1.day := by rw [he2]
        subst hc2
        refine ⟨?_, by omega, by omega, ?_⟩
        · rw [he2]
          simp only [PyDate.valid, Bool.and_eq_true, decide_eq_true_eq]
          and_intros <;> first | trivial | omega
        · intro hc0
          simp only [Bool.or_false] at hc0
          rw [hc0] at hflag
          have hnlt : ¬d1.day < d.day := by
            have := hflag.symm
            simpa using this
          omega
      · -- Feb-29 fallback: the source day must be 29 Feb clamped to 28
        have hm2' : d1.month = 2 := by
          by_contra hne
          rw [daysInMonth_ne_two d1.year (d1.year + y) d1.month hne] at hble
          exact hgt hble
        have h29 : d1.day = 29 := by
          have hA := daysInMonth_feb_le d1.year
          have hB := daysInMonth_ge (d1.year + y) 2
          rw [hm2'] at hble hgt
          omega
        have hyE : e2.year = d1.year + y := by rw [he2]
        have hmE : e2.month = 2 := by rw [he2]
        have hdE : e2.day = 28 := by rw [he2]
        subst hc2
        have hB := daysInMonth_ge (d1.year + y) 2
        refine ⟨?_, by omega, by omega, ?_⟩
        · rw [he2]
          simp only [PyDate.valid, Bool.and_eq_true, decide_eq_true_eq]
          and_intros <;> first | trivial | omega
        · intro hc0
          simp only [Bool.or_true] at hc0
          exact Bool.noConfusion hc0

lemma addYearsAndMonthsCode_zero {d : PyDate} (hv : d.valid = true) :
    addYearsAndMonthsCode d 0 0 = some (d, false) := by
  have hv' := hv
  simp only [PyDate.valid, Bool.and_eq_true, decide_eq_true_eq] at hv'
  obtain ⟨⟨⟨⟨⟨hy1, hy2⟩, hm1⟩, hm2⟩, hd1⟩, hd2⟩ := hv'
  have h1 : addMonthsCode d 0 = some (d, false) := by
    dsimp only [addMonthsCode]
    have e1 : d.year + (d.month - 1 + 0) / 12 = d.year := by omega
    have e2 : (d.month - 1 + 0) % 12 + 1 = d.month := by omega
    rw [e1, e2, min_eq_left hd2]
    rw [if_pos ⟨hy1, hy2⟩]
    simp only [Option.some.injEq, Prod.mk.injEq, decide_eq_false_iff_not, not_lt]
    exact ⟨trivial, le_refl _⟩
  have h2 : addYearsCode d 0 = some (d, false) := by
    dsimp only [addYearsCode]
    rw [if_pos ⟨by omega, by omega, by rw [add_zero]; exact hd2⟩]
    simp only [Option.some.injEq, Prod.mk.injEq, and_true]
    rw [add_zero]
  simp only [addYearsAndMonthsCode, h1, h2, Bool.or_false]

lemma subSeconds_pyNeg (td : TimedeltaValue) :
    td.pyNeg.subSeconds = -td.subSeconds := by
  simp only [TimedeltaValue.pyNeg, TimedeltaValue.subSeconds]
  ring

lemma midnight_dt_valid {d : PyDate} (hv : d.valid = true) :
    (⟨d, midnight⟩ : PyDateTime).valid = true := by
  simp only [PyDateTime.valid, Bool.and_eq_true]
  exact ⟨hv, by decide⟩

/-- C9 (amended): for every valid date `d` and every timedelta `td` that
does not mix month-scale and sub-month components — that is, either its
years/months are zero or its weeks/days/hours/minutes/seconds are zero —
whenever `d + td` and the subsequent subtraction of `td` both compute,
`(d + td) − td ≤ d` holds in the temporal ordering, and if no day-of-month
clamping occurred in either direction then `(d + td) − td == d`.  (The
original unrestricted claim is refuted by `c9_counterexample`: with mixed
components the month shift and the day shift do not commute, so the round
trip misses `d` even without clamping, and can land above `d`.) -/
theorem c9_amended_closure_unmixed (d : PyDate) (td : TimedeltaValue)
    (hv : d.valid = true)
    (hsep : td.monthFree = true ∨ td.subMonthZero = true)
    (A B : PyDateTime) (cA cB : Bool)
    (hAdd : dateAddTd d td = some (A, cA))
    (hSub : dtSubTd A td = some (B, cB)) :
    dtLeDate B d = true ∧ (cA = false → cB = false → dtEqDate B d = true) := by
  rcases hsep with hmf | hsz
  · -- only sub-month components: exact inverse through the linear timeline
    simp only [TimedeltaValue.monthFree, Bool.and_eq_true, beq_iff_eq] at hmf
    obtain ⟨hY, hM⟩ := hmf
    simp only [dateAddTd, PyDate.toDT, dtAddTd, hY, hM,
      addYearsAndMonthsCode_zero hv] at hAdd
    cases hS : shiftSeconds ⟨d, midnight⟩ td.subSeconds with
    | none => rw [hS] at hAdd; exact Option.noConfusion hAdd
    | some A0 =>
      rw [hS] at hAdd
      simp only [Option.some.injEq, Prod.mk.injEq] at hAdd
      obtain ⟨hA0, hcA⟩ := hAdd
      subst hA0
      subst hcA
      obtain ⟨hAv, hSback⟩ := shiftSeconds_inv (midnight_dt_valid hv) hS
      have hAdv : A0.date.valid = true := by
        simp only [PyDateTime.valid, Bool.and_eq_true] at hAv
        exact hAv.1
      have hpy : td.pyNeg.years = 0 := by
        simp only [TimedeltaValue.pyNeg, hY, neg_zero]
      have hpm : td.pyNeg.months = 0 := by
        simp only [TimedeltaValue.pyNeg, hM, neg_zero]
      simp only [dtSubTd, dtAddTd, hpy, hpm,
        addYearsAndMonthsCode_zero hAdv] at hSub
      rw [show (⟨A0.date, A0.time⟩ : PyDateTime) = A0 from rfl, subSeconds_pyNeg,
        hSback] at hSub
      simp only [Option.some.injEq, Prod.mk.injEq] at hSub
      obtain ⟨hB, hcB⟩ := hSub
      subst hB
      constructor
      · simp [dtLeDate, dtEq, PyDate.toDT]
      · intro _ _
        simp [dtEqDate, dtEq, PyDate.toDT]
  · -- only year/month components: month-index round trip with clamping
    have hs0 : td.subSeconds = 0 := by
      simp only [TimedeltaValue.subMonthZero, Bool.and_eq_true, beq_iff_eq] at hsz
      obtain ⟨⟨⟨⟨hW, hD⟩, hH⟩, hMi⟩, hS⟩ := hsz
      simp only [TimedeltaValue.subSeconds, hW, hD, hH, hMi, hS]
      ring
    cases h1 : addYearsAndMonthsCode d td.years td.months with
    | none =>
      simp only [dateAddTd, PyDate.toDT, dtAddTd, h1] at hAdd
      exact Option.noConfusion hAdd
    | some p1 =>
      obtain ⟨d1, c1⟩ := p1
      obtain ⟨hd1v, hmidx1, hday1, hnoclamp1⟩ := addYearsAndMonthsCode_props hv h1
      simp only [dateAddTd, PyDate.toDT, dtAddTd, h1, hs0,
        shiftSeconds_zero (midnight_dt_valid hd1v), Option.some.injEq,
        Prod.mk.injEq] at hAdd
      obtain ⟨hA, hcA⟩ := hAdd
      subst hA
      subst hcA
      cases h2 : addYearsAndMonthsCode d1 td.pyNeg.years td.pyNeg.months with
      | none =>
        simp only [dtSubTd, dtAddTd, h2] at hSub
        exact Option.noConfusion hSub
      | some p2 =>
        obtain ⟨e1, c2⟩ := p2
        obtain ⟨he1v, hmidx2, hday2, hnoclamp2⟩ := addYearsAndMonthsCode_props hd1v h2
        have hs0' : td.pyNeg.subSeconds = 0 := by rw [subSeconds_pyNeg, hs0]; ring
        simp only [dtSubTd, dtAddTd, h2, hs0',
          shiftSeconds_zero (midnight_dt_valid he1v), Option.some.injEq,
          Prod.mk.injEq] at hSub
        obtain ⟨hB, hcB⟩ := hSub
        subst hB
        subst hcB
        -- month indices cancel, so year and month return to the original
        have hpn1 : td.pyNeg.years = -td.years := rfl
        have hpn2 : td.pyNeg.months = -td.months := rfl
        rw [hpn1, hpn2] at hmidx2
        have hmb : 1 ≤ e1.month ∧ e1.month ≤ 12 := by
          have := he1v
          simp only [PyDate.valid, Bool.and_eq_true, decide_eq_true_eq] at this
          exact ⟨this.1.1.1.2, this.1.1.2⟩
        have hdb : 1 ≤ d.month ∧ d.month ≤ 12 := by
          have := hv
          simp only [PyDate.valid, Bool.and_eq_true, decide_eq_true_eq] at this
          exact ⟨this.1.1.1.2, this.1.1.2⟩
        have hyr : e1.year = d.year := by omega
        have hmo : e1.month = d.month := by omega
        have hdltle : e1.day ≤ d.day := le_trans hday2 hday1
        constructor
        · rcases lt_or_eq_of_le hdltle with hlt | heq
          · simp only [dtLeDate, dtLt, PyDate.toDT, PyDate.pyLt, dtEq,
              Bool.or_eq_true, Bool.and_eq_true, decide_eq_true_eq, beq_iff_eq]
            left
            left
            omega
          · have he : e1 = d := by
              obtain ⟨a1, a2, a3⟩ := e1
              obtain ⟨b1, b2, b3⟩ := d
              simp only [PyDate.mk.injEq]
              simp only at hyr hmo heq
              exact ⟨hyr, hmo, heq⟩
            rw [he]
            simp [dtLeDate, dtEq, PyDate.toDT]
        · intro hca hcb
          have x1 := hnoclamp1 hca
          have x2 := hnoclamp2 hcb
          have he : e1 = d := by
            obtain ⟨a1, a2, a3⟩ := e1
            obtain ⟨b1, b2, b3⟩ := d
            simp only [PyDate.mk.injEq]
            simp only at hyr hmo x1 x2
            refine ⟨hyr, hmo, ?_⟩
            omega
          rw [he]
          simp [dtEqDate, dtEq, PyDate.toDT]

/-- C9 amended witness: the theorem applied to 31.01.2020 and the pure
one-month timedelta, where the forward addition clamps (to 29.02.2020) and
the round trip lands on 29.01.2020, below the original date. -/
theorem c9_amended_closure_unmixed_witness :
    dtLeDate ⟨⟨2020, 1, 29⟩, midnight⟩ ⟨2020, 1, 31⟩ = true ∧
      (true = false → false = false →
        dtEqDate ⟨⟨2020, 1, 29⟩, midnight⟩ ⟨2020, 1, 31⟩ = true) :=
  c9_amended_closure_unmixed ⟨2020, 1, 31⟩ { months := 1 } (by decide)
    (.inr (by decide)) ⟨⟨2020, 2, 29⟩, midnight⟩ ⟨⟨2020, 1, 29⟩, midnight⟩
    true false (by decide) (by decide)

end Timon
